import Mathlib

/-!
# Verification of the Zakia chatbot conversation orchestration

A shallow embedding of the conversation orchestration core of the Zakia
zakat-calculator chatbot, translated from the JavaScript sources
(`ZakatHandler`, the orchestrator, and `ReminderHandler`, the nested
reminder opt-in sub-flow), together with theorems settling the
specification claims about it.

Conventions of the embedding:
* JavaScript strings become `String` / `List Char`; the relevant string
  operations (`replace` with the concrete regexes, `trim`, `toLowerCase`,
  `includes`, `startsWith`, `slice`) are transcribed as explicit functions.
* JavaScript numbers become an inductive `JSNum` (`NaN`, signed `Infinity`,
  or an exact rational); float rounding is modelled exactly.
* The asynchronous boundary calls (calendar service, computation service,
  nisab info, reminder persistence) become request actions plus separate
  response events; at most the bookkeeping needed to know a request is in
  flight is added to the state.
* Timed `setTimeout` continuations that merely pace the dialog are
  collapsed into their synchronous effect.
-/

/-! ## Character and string helpers (JavaScript semantics) -/

/-- Characters matched by the JavaScript regex class `\s` (the common ones:
space, tab, newline, carriage return, vertical tab, form feed). -/
def jsWs (c : Char) : Bool :=
  c = ' ' || c = '\t' || c = '\n' || c = '\r' || c = '\x0b' || c = '\x0c'

/-- JavaScript `String.prototype.trim` on a character list. -/
def trimChars (l : List Char) : List Char :=
  ((l.dropWhile jsWs).reverse.dropWhile jsWs).reverse

/-- Lower-casing a character list, as JavaScript `toLowerCase` on ASCII. -/
def toLowerL (l : List Char) : List Char := l.map Char.toLower

/-- JavaScript `String.prototype.includes`: `hasSub needle hay` is true when
`needle` occurs contiguously inside `hay`. -/
def hasSub (needle : List Char) : List Char → Bool
  | [] => needle.isEmpty
  | c :: rest => needle.isPrefixOf (c :: rest) || hasSub needle rest

/-- The cancel-keyword test of `ReminderHandler.processInput`:
`text.toLowerCase().includes('batal') || text.toLowerCase().includes('cancel')`. -/
def cancelText (text : List Char) : Bool :=
  hasSub "batal".data (toLowerL text) || hasSub "cancel".data (toLowerL text)

/-- First whitespace-separated token, as `s.split(' ')[0] || ''` in the
JavaScript sources. -/
def firstToken (s : String) : String :=
  ⟨s.data.takeWhile (fun c => c ≠ ' ')⟩

/-! ## JavaScript numbers and `parseFloat` -/

/-- A JavaScript number as far as the orchestrator observes it: `NaN`,
`Infinity` / `-Infinity`, or a finite value. A finite value is kept in the
exact decimal form `mant × 10 ^ exp10` in which `parseFloat` produces it
(every number the embedded code manipulates arises from such a parse, and
the code only ever compares numbers with `0`, which depends on `mant`
alone). `decVal` below gives the rational value of the components. -/
inductive JSNum where
  | nan : JSNum
  | inf (neg : Bool) : JSNum
  | num (mant : ℤ) (exp10 : ℤ) : JSNum
deriving DecidableEq, Repr

/-- Rational value of the decimal components of a finite `JSNum`. -/
def decVal (mant exp10 : ℤ) : ℚ := (mant : ℚ) * 10 ^ exp10

/-- Leading-sign split used by `parseFloat`: consumes one optional `+`/`-`
and reports whether the value is negated. -/
def signSplit (l : List Char) : Bool × List Char :=
  match l with
  | c :: r => if c = '-' then (true, r) else if c = '+' then (false, r) else (false, c :: r)
  | [] => (false, [])

/-- Fractional-part split: after a `.`, the fractional digits and the rest;
without a leading `.`, nothing. -/
def fracSplit (r : List Char) : List Char × List Char :=
  match r with
  | c :: r' => if c = '.' then (r'.takeWhile Char.isDigit, r'.dropWhile Char.isDigit) else ([], c :: r')
  | [] => ([], [])

/-- Value of a digit string, most significant first. -/
def digitsVal (l : List Char) : ℕ :=
  l.foldl (fun a c => 10 * a + (c.toNat - 48)) 0

/-- Exponent part of `parseFloat`: after the `e`/`E`, an optional sign and
digits; if no digit follows, the exponent marker is not consumed (JS
`parseFloat("1e") = 1`). -/
def expVal (l : List Char) : ℤ :=
  let (eneg, s) := signSplit l
  let eds := s.takeWhile Char.isDigit
  if eds.isEmpty then 0 else (if eneg then -1 else 1) * (digitsVal eds : ℤ)

/-- JavaScript `parseFloat`: skip leading whitespace, optional sign, then
either the literal `Infinity` or the longest prefix of the form
`digits [. digits] [e|E [sign] digits]`; trailing characters are ignored;
`NaN` when no digit (and no `Infinity`) can be read. A finite result
`digits.fracDigits eExp` has value `mant × 10 ^ (eExp - |fracDigits|)`
where `mant` is the signed integer formed by all the digits; it is
returned in exactly that decimal form. -/
def parseFloatChars (l : List Char) : JSNum :=
  let l1 := l.dropWhile jsWs
  let neg := (signSplit l1).1
  let s := (signSplit l1).2
  if "Infinity".data.isPrefixOf s then .inf neg
  else
    let ds := s.takeWhile Char.isDigit
    let r := s.dropWhile Char.isDigit
    let fs := (fracSplit r).1
    let r2 := (fracSplit r).2
    if ds.isEmpty && fs.isEmpty then .nan
    else
      let mant : ℤ :=
        (if neg then -1 else 1) * ((digitsVal ds : ℤ) * 10 ^ fs.length + (digitsVal fs : ℤ))
      let e : ℤ :=
        match r2 with
        | 'e' :: rest => expVal rest
        | 'E' :: rest => expVal rest
        | _ => 0
      .num mant (e - fs.length)

/-- Whole-string decimal-numeral parse: an optional sign, digits with an
optional fractional part, and nothing else; result in the same decimal
component form as `parseFloatChars`. This is the specification-side reading
of "parses as a decimal number" used to compare against the code's
`parseFloat`-based validator. -/
def decimalValue? (l : List Char) : Option (ℤ × ℤ) :=
  let neg := (signSplit l).1
  let s := (signSplit l).2
  let ds := s.takeWhile Char.isDigit
  let r := s.dropWhile Char.isDigit
  let fs := (fracSplit r).1
  let r2 := (fracSplit r).2
  if (ds.isEmpty && fs.isEmpty) || !r2.isEmpty then none
  else some ((if neg then -1 else 1) * ((digitsVal ds : ℤ) * 10 ^ fs.length + (digitsVal fs : ℤ)),
             -(fs.length : ℤ))

/-! ## The currency-amount validator (`ZakatHandler.validateInput`) -/

/-- The cleaning step `message.replace(/[RM,\s]/gi, '').trim()`: remove every
`R`, `M` (either case), comma and whitespace character, then trim. -/
def cleanAmount (message : String) : List Char :=
  trimChars (message.data.filter
    (fun c => !(c = 'R' || c = 'r' || c = 'M' || c = 'm' || c = ',' || jsWs c)))

/-- `ZakatHandler.validateInput`: the optional fields `hutang_saham` and
`jumlah_pengeluaran` default to `0` when the cleaned input is empty;
otherwise the cleaned input goes through `parseFloat` and is rejected when
the result `isNaN` or is negative (`number < 0`; a finite decimal
`mant × 10 ^ exp10` is negative exactly when `mant < 0`). -/
def validateInput (message stepName : String) : Option JSNum :=
  let cleaned := cleanAmount message
  if (stepName = "hutang_saham" || stepName = "jumlah_pengeluaran") && cleaned.isEmpty then
    some (.num 0 0)
  else
    match parseFloatChars cleaned with
    | .nan => none
    | .inf b => if b then none else some (.inf false)
    | .num m e => if m < 0 then none else some (.num m e)

/-! ## Reminder-flow field validators (`ReminderHandler.processInput`) -/

/-- The identity-number cleaning `text.replace(/[-\s]/g, '')`. -/
def icClean (text : List Char) : List Char :=
  text.filter (fun c => !(c = '-' || jsWs c))

/-- The identity-number test `/^\d{12}$/`. -/
def icTest (l : List Char) : Bool :=
  l.length = 12 && l.all Char.isDigit

/-- The phone cleaning `text.replace(/[\s\-]/g, '')`. -/
def phoneStrip (text : List Char) : List Char :=
  text.filter (fun c => !(jsWs c || c = '-'))

/-- The country-prefix rewrite of the phone field: `+60...` becomes `0...`,
and `60...` with at least 11 characters becomes `0...`. -/
def phoneNormalize (p : List Char) : List Char :=
  if "+60".data.isPrefixOf p then '0' :: p.drop 3
  else if "60".data.isPrefixOf p && decide (11 ≤ p.length) then '0' :: p.drop 2
  else p

/-- The phone acceptance regex `/^0\d{9,10}$/`. -/
def phoneTest (p : List Char) : Bool :=
  match p with
  | c :: rest =>
      c = '0' && rest.all Char.isDigit && decide (9 ≤ rest.length) && decide (rest.length ≤ 10)
  | [] => false

/-- The phone branch of `ReminderHandler.processInput` as a function from the
trimmed text to the stored phone number (`none` on rejection). -/
def processPhone (text : List Char) : Option (List Char) :=
  if phoneTest (phoneNormalize (phoneStrip text)) then some (phoneNormalize (phoneStrip text))
  else none


/-! ## Data model

`ZState` transcribes `ZakatHandler.state`, `RemState` and `RemData`
transcribe `ReminderHandler.state`; `SysState` packages both handlers
plus the in-flight-request bookkeeping of the three asynchronous calls. -/

/-- `ReminderHandler.state.data`. -/
structure RemData where
  name : Option String
  ic_number : Option String
  phone : Option String
  zakat_type : Option String
  zakat_amount : Option ℚ
deriving DecidableEq, Repr

/-- `ReminderHandler.state`. -/
structure RemState where
  active : Bool
  waitingFor : Option String
  data : RemData
deriving DecidableEq, Repr

/-- `ZakatHandler.state`; `data` is the `collectedFields` map, kept in
property-insertion order as a JavaScript object would. -/
structure ZState where
  active : Bool
  type : Option String
  step : ℕ
  data : List (String × JSNum)
  yearType : Option String
  year : Option String
  availableYears : List String
  incomeMethod : Option String
deriving DecidableEq, Repr

/-- A JSON value in a payload sent to the computation service. -/
inductive PVal where
  | jnum (v : JSNum)
  | jstr (s : String)
  | jnull
  | jabsent
deriving DecidableEq, Repr

/-- A request body for the computation service: endpoint plus parameters. -/
structure CalcPayload where
  endpoint : String
  params : List (String × PVal)
deriving DecidableEq, Repr

/-- A JSON value in the reminder persistence payload. -/
inductive SaveVal where
  | sstr (s : String)
  | snum (q : ℚ)
  | snull
deriving DecidableEq, Repr

/-- Outputs of the state machines: presentation messages, rendered year
choices, the four boundary-service requests, and an instrumentation marker
placed exactly at the `startReminderFlow` call site. -/
inductive Act where
  | msg (text : String)
  | showYears (years : List String)
  | yearRequest (yearType : String)
  | nisabRequest (year yearType : String)
  | calcRequest (p : CalcPayload)
  | saveRequest (fields : List (String × SaveVal))
  | startReminder (zakatType : String) (amount : ℚ)
deriving DecidableEq, Repr

/-- Response of the computation service: `success:true` with
`{reaches_nisab, zakat_amount, type?}` and a rendered `reply`, or
`success:false` with an optional `error` text, or an unreachable service
(the `catch` branch of `calculateZakat`). -/
inductive CalcResponse where
  | ok (reaches_nisab : Bool) (zakat_amount : ℚ) (rtype : Option String) (reply : String)
  | err (error : Option String)
  | unreachable
deriving DecidableEq, Repr

/-- Response of the calendar service as `fetchAndShowYears` distinguishes
it: a well-formed success (`success && years && Array.isArray(years)`)
carrying the list, or anything else (network error, `success:false`,
missing list), which lands in the `catch` branch. -/
inductive YearsResponse where
  | ok (years : List String)
  | failure
deriving DecidableEq, Repr

/-! ## Flow catalog (`ZakatHandler.zakatTypes`) -/

/-- Step lists of `ZakatHandler.zakatTypes` (the `nisab` entry is the one
installed by `showNisabYearSelection`). -/
def zakatSteps (t : String) : List String :=
  match t with
  | "income_kaedah_a" => ["year_type", "year", "amount"]
  | "income_kaedah_b" => ["year_type", "year", "amount", "expenses"]
  | "savings" => ["year_type", "year", "amount"]
  | "padi" => ["year_type", "year", "jumlah_hasil_rm"]
  | "saham" => ["year_type", "year", "nilai_portfolio", "hutang_saham"]
  | "perak" => ["year_type", "year", "berat_perak_g", "harga_per_gram"]
  | "kwsp" => ["year_type", "year", "jumlah_akaun_1", "jumlah_akaun_2", "jumlah_pengeluaran"]
  | "nisab" => ["year_type", "year"]
  | _ => []

/-- Step list of the session's active flow variant (`config.steps`). -/
def stepsOf (t : Option String) : List String :=
  match t with
  | some t => zakatSteps t
  | none => []

/-- Per-step prompt texts of `ZakatHandler.zakatTypes` (free-text steps). -/
def zakatPrompt (t stepName : String) : String :=
  match t, stepName with
  | "income_kaedah_a", "amount" => "💼 Sila masukkan jumlah pendapatan kasar tahunan anda (RM):"
  | "income_kaedah_b", "amount" => "💼 Sila masukkan jumlah pendapatan tahunan anda (RM):"
  | "income_kaedah_b", "expenses" => "💸 Sila masukkan jumlah perbelanjaan asas tahunan anda (RM):"
  | "savings", "amount" => "💰 Sila masukkan jumlah simpanan anda (RM):"
  | "padi", "jumlah_hasil_rm" => "🌾 Sila masukkan jumlah hasil padi anda dalam RM:"
  | "saham", "nilai_portfolio" => "📈 Sila masukkan nilai portfolio saham anda (RM):"
  | "saham", "hutang_saham" => "💳 Sila masukkan hutang saham (RM) [kosongkan jika tiada]:"
  | "perak", "berat_perak_g" => "🥈 Sila masukkan berat perak anda (gram):"
  | "perak", "harga_per_gram" => "💰 Sila masukkan harga perak per gram (RM):"
  | "kwsp", "jumlah_akaun_1" => "💼 Sila masukkan jumlah Akaun 1 (RM):"
  | "kwsp", "jumlah_akaun_2" => "💼 Sila masukkan jumlah Akaun 2 (RM):"
  | "kwsp", "jumlah_pengeluaran" => "💳 Sila masukkan jumlah pengeluaran (RM) [kosongkan jika tiada]:"
  | _, _ => ""

/-- Prompt of the step at index `i` of the active variant
(`askNextQuestion`). -/
def promptAt (t : Option String) (i : ℕ) : String :=
  match t with
  | some t => zakatPrompt t (((zakatSteps t).get? i).getD "")
  | none => ""

/-- The calculator types started through `startZakatCalculation` (menu and
income-method buttons); the nisab menu entry goes through
`showNisabYearSelection` instead. -/
def calcTypes : List String :=
  ["income_kaedah_a", "income_kaedah_b", "savings", "padi", "saham", "perak", "kwsp"]

/-! ## Collected-fields map operations (JavaScript object semantics) -/

/-- `this.state.data[key]`. -/
def lookupData (d : List (String × JSNum)) (k : String) : Option JSNum :=
  (d.find? (fun p => p.1 = k)).map (fun p => p.2)

/-- `this.state.data[key] = v`: update the binding in place when present,
append it otherwise. -/
def setKey (d : List (String × JSNum)) (k : String) (v : JSNum) : List (String × JSNum) :=
  if d.any (fun p => p.1 = k) then d.map (fun p => if p.1 = k then (k, v) else p)
  else d ++ [(k, v)]

/-! ## Fixed states -/

/-- `ZakatHandler.resetState` / the constructor state. -/
def resetZ : ZState :=
  { active := false, type := none, step := 0, data := [], yearType := none, year := none,
    availableYears := [], incomeMethod := none }

/-- `ReminderHandler.resetState` / the constructor state. -/
def resetRem : RemState :=
  { active := false, waitingFor := none,
    data := { name := none, ic_number := none, phone := none, zakat_type := none,
              zakat_amount := none } }

/-- `ZakatHandler.startZakatCalculation`. -/
def startZakatCalculation (t : String) : ZState :=
  { active := true, type := some t, step := 0, data := [], yearType := none, year := none,
    availableYears := [],
    incomeMethod :=
      if hasSub "kaedah_a".data t.data then some "kaedah_a"
      else if hasSub "kaedah_b".data t.data then some "kaedah_b"
      else none }

/-- The session installed by `showNisabYearSelection` (its state literal has
no `incomeMethod` property, i.e. it is undefined). -/
def nisabInitState : ZState :=
  { active := true, type := some "nisab", step := 0, data := [], yearType := none, year := none,
    availableYears := [], incomeMethod := none }

/-! ## Year resolution (`fetchAndShowYears` / `showYearSelection`) -/

/-- The static fallback list of the `catch` branch of `fetchAndShowYears`. -/
def defaultYears (yearType : String) : List String :=
  if yearType = "H" then ["1448", "1447", "1446", "1445"]
  else ["2025", "2024", "2023", "2022"]

/-- The fallback pushed by `showYearSelection` when the list to display is
empty. -/
def emptyDisplayYears (yearType : String) : List String :=
  if yearType = "H" then ["1448", "1447", "1446"]
  else ["2025", "2024", "2023"]

/-- `ZakatHandler.showYearSelection`: the year choices actually rendered
for a given list (truncate to 5; fall back when empty). -/
def showYearSelection (years : List String) (yearType : String) : List String :=
  let displayYears := years.take 5
  if displayYears.isEmpty then emptyDisplayYears yearType else displayYears

/-- `ZakatHandler.fetchAndShowYears`, given the calendar-service outcome:
the rendered year choices together with whether the informational notice
`ℹ️ Menggunakan tahun tersedia...` is shown. -/
def fetchAndShowYears (yearType : String) (r : YearsResponse) : List String × Bool :=
  match r with
  | .ok ys => (showYearSelection ys yearType, false)
  | .failure => (showYearSelection (defaultYears yearType) yearType, true)

/-! ## Reminder sub-flow (`ReminderHandler`) -/

/-- The fixed prompts of `ReminderHandler.prompts`. -/
def remPermissionPrompt : String := "Adakah anda ingin menerima peringatan pembayaran zakat? 🔔"

/-- `ReminderHandler.prompts.name`. -/
def remNamePrompt : String := "Baik, boleh saya tahu nama penuh anda? 📝"

/-- `ReminderHandler.prompts.ic`, personalized with the first token of the
collected name (`askIC`). -/
def remIcPrompt (name : Option String) : String :=
  "Terima kasih " ++ firstToken (name.getD "") ++
    " 😊. Seterusnya, sila masukkan nombor IC anda (12 digit tanpa tanda sempang, contoh: 950101015678)."

/-- `ReminderHandler.prompts.phone`. -/
def remPhonePrompt : String :=
  "Baik, terakhir sekali, sila masukkan nombor telefon anda tanpa sebarang ruang atau tanda sempang (contoh: 0123456789). 📱"

/-- `ReminderHandler.startReminderFlow`. Its JavaScript signature declares
only `(zakatType, zakatAmount)`; the call site in `ZakatHandler.offerReminder`
passes two further arguments (the selected year and calendar system), which
the function silently drops — hence the two unused parameters here. -/
def startReminderFlow (zakatType : String) (zakatAmount : ℚ) (_year _yearType : String) :
    RemState :=
  { active := true, waitingFor := none,
    data := { name := none, ic_number := none, phone := none, zakat_type := some zakatType,
              zakat_amount := some zakatAmount } }

/-- The body sent by `ReminderHandler.submitReminder` to
`POST /api/save-reminder` (a JavaScript `null` field serializes as JSON
`null`). -/
def savePayload (d : RemData) : List (String × SaveVal) :=
  [("name", match d.name with | some s => .sstr s | none => .snull),
   ("ic_number", match d.ic_number with | some s => .sstr s | none => .snull),
   ("phone", match d.phone with | some s => .sstr s | none => .snull),
   ("zakat_type", match d.zakat_type with | some s => .sstr s | none => .snull),
   ("zakat_amount", match d.zakat_amount with | some q => .snum q | none => .snull)]

/-- Result of `ReminderHandler.processInput`: the updated handler state, the
emitted outputs, the returned boolean (whether the message was consumed),
and whether `submitReminder` was dispatched. -/
structure RemResult where
  rm : RemState
  acts : List Act
  consumed : Bool
  submitted : Bool
deriving DecidableEq, Repr

/-- `ReminderHandler.processInput`. The `setTimeout`-paced `askIC` /
`askPhone` continuations (which set `waitingFor` to the next field and show
its prompt) are collapsed into the accepting branch. -/
def remProcessInput (rm : RemState) (message : String) : RemResult :=
  if !(rm.active && rm.waitingFor.isSome) then ⟨rm, [], false, false⟩
  else
    let text := trimChars message.data
    if cancelText text then
      ⟨resetRem, [Act.msg "❌ Pendaftaran peringatan dibatalkan."], true, false⟩
    else if text.isEmpty then
      ⟨rm, [Act.msg "Sila masukkan nilai yang sah. ⚠️"], true, false⟩
    else if rm.waitingFor = some "name" then
      if text.length < 3 then
        ⟨rm, [Act.msg "Sila masukkan nama penuh yang sah (sekurang-kurangnya 3 aksara). ⚠️"],
         true, false⟩
      else
        ⟨{ rm with data := { rm.data with name := some ⟨text⟩ }, waitingFor := some "ic" },
         [Act.msg (remIcPrompt (some ⟨text⟩))], true, false⟩
    else if rm.waitingFor = some "ic" then
      if !icTest (icClean text) then
        ⟨rm, [Act.msg "Nombor IC tidak sah. Sila masukkan 12 digit tanpa tanda sempang (contoh: 950101015678). ⚠️"],
         true, false⟩
      else
        ⟨{ rm with data := { rm.data with ic_number := some ⟨icClean text⟩ },
                   waitingFor := some "phone" },
         [Act.msg remPhonePrompt], true, false⟩
    else if rm.waitingFor = some "phone" then
      match processPhone text with
      | none =>
          ⟨rm, [Act.msg "Nombor telefon tidak sah. Sila masukkan nombor telefon Malaysia yang betul (contoh: 0123456789). ⚠️"],
           true, false⟩
      | some p =>
          ⟨{ rm with data := { rm.data with phone := some ⟨p⟩ }, waitingFor := none },
           [Act.saveRequest (savePayload { rm.data with phone := some ⟨p⟩ })], true, true⟩
    else ⟨rm, [], true, false⟩

/-! ## Hand-off to the reminder sub-flow (`ZakatHandler.offerReminder`) -/

/-- The variant-to-label map of `offerReminder`. -/
def zakatTypeMap (t : String) : Option String :=
  match t with
  | "income_kaedah_a" => some "pendapatan"
  | "income_kaedah_b" => some "pendapatan"
  | "savings" => some "simpanan"
  | _ => none

/-- The `validZakatTypes` list of `offerReminder`. -/
def validZakatTypes : List String :=
  ["pendapatan", "simpanan", "padi", "saham", "perak", "kwsp",
   "income_kaedah_a", "income_kaedah_b", "savings", "umum"]

/-- The obligation-type label `offerReminder` resolves: the passed type (or
the session type), sent through `zakatTypeMap` with the JavaScript `||`
fallback to itself, then defaulted to `pendapatan` when falsy or not in
`validZakatTypes`. -/
def offerRemLabel (z : ZState) (zakatTypeFromState : Option String) : String :=
  let stateType : Option String :=
    match zakatTypeFromState with
    | some t => some t
    | none => z.type
  match stateType with
  | some t =>
      let t1 := (zakatTypeMap t).getD t
      if t1 ≠ "" && t1 ∈ validZakatTypes then t1 else "pendapatan"
  | none => "pendapatan"

/-- The year `offerReminder` resolves (`yearFromState !== null ? ... :
this.state.year || ''`). -/
def offerRemYear (z : ZState) (yearFromState : Option String) : String :=
  match yearFromState with
  | some y => y
  | none => z.year.getD ""

/-- The calendar system `offerReminder` resolves (defaulting to `M`). -/
def offerRemYearType (z : ZState) (yearTypeFromState : Option String) : String :=
  match yearTypeFromState with
  | some t => t
  | none => z.yearType.getD "M"

/-- `ZakatHandler.offerReminder`: resolve the obligation-type label, the
year and the calendar system (with their JavaScript `||` defaults), start
the reminder flow, and (per its trailing `setTimeout`) reset the zakat
session. The `Act.startReminder` marker instruments the
`startReminderFlow` call site. -/
def offerReminder (z : ZState) (zakatAmount : ℚ)
    (zakatTypeFromState yearFromState yearTypeFromState : Option String) :
    RemState × List Act :=
  (startReminderFlow (offerRemLabel z zakatTypeFromState) zakatAmount
     (offerRemYear z yearFromState) (offerRemYearType z yearTypeFromState),
   [Act.startReminder (offerRemLabel z zakatTypeFromState) zakatAmount,
    Act.msg remPermissionPrompt])

/-! ## Payload assembly and dispatch (`ZakatHandler.calculateZakat`) -/

/-- JavaScript `x || 0` on a possibly-missing number. -/
def jsOr0 (o : Option JSNum) : JSNum :=
  match o with
  | some (.num m e) => .num m e
  | some (.inf b) => .inf b
  | _ => .num 0 0

/-- A present number field of the payload (`undefined` when missing). -/
def jfield (o : Option JSNum) : PVal :=
  match o with
  | some v => .jnum v
  | none => .jabsent

/-- A string field of the payload (`null` when missing). -/
def sfield (o : Option String) : PVal :=
  match o with
  | some s => .jstr s
  | none => .jnull

/-- The payload construction of `calculateZakat` (lines building `payload`
and choosing the endpoint); `none` models the `throw` on an unrecognized
type. `Number(x) || 0` on the padi field behaves as `jsOr0` since the
stored value is already a number. -/
def buildPayload (z : ZState) : Option CalcPayload :=
  match z.type with
  | some "income_kaedah_a" =>
      some ⟨"/api/calculate-zakat",
        [("type", .jstr "income_kaedah_a"),
         ("gross_income", jfield (lookupData z.data "amount")),
         ("year", sfield z.year), ("year_type", sfield z.yearType)]⟩
  | some "income_kaedah_b" =>
      some ⟨"/api/calculate-zakat",
        [("type", .jstr "income_kaedah_b"),
         ("annual_income", jfield (lookupData z.data "amount")),
         ("annual_expenses", jfield (lookupData z.data "expenses")),
         ("year", sfield z.year), ("year_type", sfield z.yearType)]⟩
  | some "savings" =>
      some ⟨"/api/calculate-zakat",
        [("type", .jstr "savings"),
         ("savings_amount", jfield (lookupData z.data "amount")),
         ("year", sfield z.year), ("year_type", sfield z.yearType)]⟩
  | some "padi" =>
      some ⟨"/zakat-calculator/padi",
        [("jumlah_rm", .jnum (jsOr0 (lookupData z.data "jumlah_hasil_rm"))),
         ("year", sfield z.year), ("year_type", sfield z.yearType)]⟩
  | some "saham" =>
      some ⟨"/zakat-calculator/saham",
        [("nilai_portfolio", jfield (lookupData z.data "nilai_portfolio")),
         ("hutang_saham", .jnum (jsOr0 (lookupData z.data "hutang_saham"))),
         ("year", sfield z.year), ("year_type", sfield z.yearType)]⟩
  | some "perak" =>
      some ⟨"/zakat-calculator/perak",
        [("berat_perak_g", jfield (lookupData z.data "berat_perak_g")),
         ("harga_per_gram", jfield (lookupData z.data "harga_per_gram")),
         ("year", sfield z.year), ("year_type", sfield z.yearType)]⟩
  | some "kwsp" =>
      some ⟨"/zakat-calculator/kwsp",
        [("jumlah_akaun_1", jfield (lookupData z.data "jumlah_akaun_1")),
         ("jumlah_akaun_2", jfield (lookupData z.data "jumlah_akaun_2")),
         ("jumlah_pengeluaran", .jnum (jsOr0 (lookupData z.data "jumlah_pengeluaran"))),
         ("year", sfield z.year), ("year_type", sfield z.yearType)]⟩
  | _ => none

/-! ## Combined system state and events -/

/-- The two handlers plus in-flight-request bookkeeping: `pendingYears`
records a dispatched calendar lookup together with its requested calendar
system (the `await`ed `fetchAndShowYears` call), `pendingNisab` a
dispatched nisab lookup, `pendingCalc` the number of in-flight computation
calls, `pendingSave` a dispatched reminder save. -/
structure SysState where
  z : ZState
  rem : RemState
  pendingYears : Option String
  pendingNisab : Bool
  pendingCalc : ℕ
  pendingSave : Bool
deriving DecidableEq, Repr

/-- The initial system state (both constructors). -/
def initState : SysState :=
  { z := resetZ, rem := resetRem, pendingYears := none, pendingNisab := false,
    pendingCalc := 0, pendingSave := false }

/-- JavaScript `a || b` on optional strings (empty string is falsy). -/
def jsOrS (a b : Option String) : Option String :=
  match a with
  | some s => if s = "" then b else some s
  | none => b

/-- The continuation of `calculateZakat` once the computation service
responds (the code after `await response.json()`, including the `catch` and
`finally` blocks): display the reply or the error, start the reminder
hand-off exactly when `data.success && data.data.reaches_nisab &&
data.data.zakat_amount > 0`, and reset the session (directly via `finally`,
or via the `setTimeout` in `offerReminder` in the qualifying case). -/
def handleCalcResponse (s : SysState) (r : CalcResponse) : SysState × List Act :=
  match r with
  | .ok nis amt rtype reply =>
      if nis && decide ((0 : ℚ) < amt) then
        let (rem', acts) := offerReminder s.z amt (jsOrS rtype s.z.type) s.z.year s.z.yearType
        ({ s with z := resetZ, rem := rem', pendingCalc := s.pendingCalc - 1 },
         Act.msg reply :: acts)
      else
        ({ s with z := resetZ, pendingCalc := s.pendingCalc - 1 }, [Act.msg reply])
  | .err error =>
      ({ s with z := resetZ, pendingCalc := s.pendingCalc - 1 },
       [Act.msg ("❌ " ++ error.getD "Ralat pengiraan. Sila cuba lagi.")])
  | .unreachable =>
      ({ s with z := resetZ, pendingCalc := s.pendingCalc - 1 },
       [Act.msg "❌ Maaf, sistem ralat. Sila cuba lagi."])

/-- `ZakatHandler.processInput` (with `calculateZakat` dispatch inlined up
to its `await`): delegate to the reminder handler when it is active;
otherwise reject button steps, validate the current free-text field, store
it and advance, and dispatch the computation request after the final
field. A missing step name indexes the data object as the JavaScript key
`"undefined"`. -/
def zakatProcessInput (s : SysState) (message : String) : SysState × List Act :=
  if s.rem.active then
    let r := remProcessInput s.rem message
    ({ s with rem := r.rm, pendingSave := s.pendingSave || r.submitted }, r.acts)
  else if !s.z.active then (s, [])
  else if s.z.step < 2 then (s, [Act.msg "Sila gunakan butang untuk memilih."])
  else
    let key := ((stepsOf s.z.type).get? s.z.step).getD "undefined"
    match validateInput message key with
    | none => (s, [Act.msg "❌ Nilai tidak sah. Sila masukkan nombor yang betul."])
    | some v =>
        let z1 := { s.z with data := setKey s.z.data key v, step := s.z.step + 1 }
        if (stepsOf z1.type).length ≤ z1.step then
          match buildPayload z1 with
          | some p => ({ s with z := z1, pendingCalc := s.pendingCalc + 1 },
                       [Act.calcRequest p])
          | none => ({ s with z := resetZ },
                     [Act.msg "❌ Maaf, sistem ralat. Sila cuba lagi."])
        else ({ s with z := z1 }, [Act.msg (promptAt z1.type z1.step)])

/-- The discrete events the embedding delivers to the handlers: flow
starts, the choice-button clicks, free text, the cancel button, and the
responses of the four asynchronous boundary calls. -/
inductive Ev where
  | startFlow (t : String)
  | startNisab
  | yearTypeChosen (yt : String)
  | yearsResponse (r : YearsResponse)
  | yearChosen (y : String)
  | textInput (m : String)
  | cancelZakat
  | calcResponse (r : CalcResponse)
  | nisabResponse (ok : Bool) (reply : String)
  | remPermission (yes : Bool)
  | saveResponse (ok : Bool) (error : Option String)
deriving DecidableEq, Repr

/-- One event-delivery step of the combined machine. `none` means the event
cannot occur there: choice events are admitted only while their controls
are live (per the button-disabling policy of the sources, re-expressed as
state guards), and a response event only while its request is in flight.
Free text and the cancel button are always deliverable. -/
def stepEv (s : SysState) (e : Ev) : Option (SysState × List Act) :=
  match e with
  | .startFlow t =>
      if t ∈ calcTypes then some ({ s with z := startZakatCalculation t }, []) else none
  | .startNisab => some ({ s with z := nisabInitState }, [])
  | .yearTypeChosen yt =>
      if (yt = "H" || yt = "M") && s.z.active && s.z.yearType.isNone && decide (s.z.step = 0)
          && s.pendingYears.isNone then
        some ({ s with z := { s.z with yearType := some yt }, pendingYears := some yt },
              [Act.yearRequest yt])
      else none
  | .yearsResponse r =>
      match s.pendingYears with
      | some yt =>
          let (displayed, notice) := fetchAndShowYears yt r
          let s1 :=
            match r with
            | .ok ys => { s with z := { s.z with availableYears := ys }, pendingYears := none }
            | .failure => { s with pendingYears := none }
          some (s1, (if notice then [Act.msg "ℹ️ Menggunakan tahun tersedia..."] else []) ++
                    [Act.showYears displayed])
      | none => none
  | .yearChosen y =>
      if s.z.active && s.z.yearType.isSome && s.z.year.isNone && decide (s.z.step = 0)
          && s.pendingYears.isNone then
        let z1 := { s.z with year := some y }
        if z1.type = some "nisab" then
          match z1.year, z1.yearType with
          | some yy, some yt =>
              if yy ≠ "" && yt ≠ "" then
                some ({ s with z := z1, pendingNisab := true }, [Act.nisabRequest yy yt])
              else some ({ s with z := nisabInitState }, [])
          | _, _ => some ({ s with z := nisabInitState }, [])
        else
          some ({ s with z := { z1 with step := 2 } }, [Act.msg (promptAt z1.type 2)])
      else none
  | .textInput m => some (zakatProcessInput s m)
  | .cancelZakat =>
      if s.z.active then
        some ({ s with z := resetZ },
              [Act.msg "❌ Pengiraan zakat dibatalkan. Taip \"kira zakat\" untuk cuba lagi."])
      else some (s, [])
  | .calcResponse r =>
      if s.pendingCalc ≠ 0 then some (handleCalcResponse s r) else none
  | .nisabResponse ok reply =>
      if s.pendingNisab then
        some ({ s with z := resetZ, pendingNisab := false },
              [Act.msg (if ok then reply
                        else "❌ Ralat mendapatkan maklumat nisab. Sila cuba lagi.")])
      else none
  | .remPermission yes =>
      if s.rem.active && s.rem.waitingFor.isNone && s.rem.data.name.isNone then
        if yes then
          some ({ s with rem := { s.rem with waitingFor := some "name" } },
                [Act.msg remNamePrompt])
        else
          some ({ s with rem := resetRem },
                [Act.msg "Baik, terima kasih. Semoga Allah memberkati rezeki anda. 🤲"])
      else none
  | .saveResponse ok error =>
      if s.pendingSave then
        some ({ s with rem := resetRem, pendingSave := false },
              [Act.msg (if ok then
                  "✅ Terima kasih " ++
                    (let f := firstToken (s.rem.data.name.getD "")
                     if f = "" then "Pengguna" else f) ++
                    "! Maklumat peringatan anda telah berjaya disimpan. LZNK akan menghantar peringatan zakat kepada anda nanti. 🤲\n\nSemoga Allah memberkati rezeki anda. 🌟"
                else "❌ " ++ error.getD "Ralat menyimpan maklumat. Sila cuba lagi.")])
      else none

/-- Reachability of a system state from the initial state by event
deliveries. -/
inductive Reach : SysState → Prop where
  | init : Reach initState
  | step {s e s' as} : Reach s → stepEv s e = some (s', as) → Reach s'

/-- Event discipline under which free text is never processed after the
final field of a flow has been accepted (that is, while the computation
call is in flight): the restriction of the amended invariant claim. -/
def SafeEv (s : SysState) (e : Ev) : Prop :=
  ∀ m, e = Ev.textInput m → s.z.active = true → s.z.step < (stepsOf s.z.type).length

/-- Reachability along event deliveries obeying `SafeEv`. -/
inductive ReachSafe : SysState → Prop where
  | init : ReachSafe initState
  | step {s e s' as} : ReachSafe s → stepEv s e = some (s', as) → SafeEv s e → ReachSafe s'

/-! ## Specification-side predicates and derived notions -/

/-- Specification-side reading of the accepted phone form: a leading zero
followed by 9 to 10 digits. -/
def isLocalPhone (l : List Char) : Prop :=
  ∃ rest, l = '0' :: rest ∧ (∀ c ∈ rest, c.isDigit = true) ∧
    9 ≤ rest.length ∧ rest.length ≤ 10

/-- The validation-rejection table of the reminder fields: given the field
being awaited and the trimmed text, the error message emitted when the
field validator rejects it (`none` when it is not a rejection case). -/
def remRejects (f : String) (text : List Char) : Option String :=
  if cancelText text then none
  else if text.isEmpty then some "Sila masukkan nilai yang sah. ⚠️"
  else if f = "name" then
    if text.length < 3 then
      some "Sila masukkan nama penuh yang sah (sekurang-kurangnya 3 aksara). ⚠️"
    else none
  else if f = "ic" then
    if !icTest (icClean text) then
      some "Nombor IC tidak sah. Sila masukkan 12 digit tanpa tanda sempang (contoh: 950101015678). ⚠️"
    else none
  else if f = "phone" then
    if (processPhone text).isNone then
      some "Nombor telefon tidak sah. Sila masukkan nombor telefon Malaysia yang betul (contoh: 0123456789). ⚠️"
    else none
  else none

/-- Keys of a collected-fields map, in insertion order. -/
def keysOf (d : List (String × JSNum)) : List String := d.map Prod.fst

/-- The field names a session at cursor `step` should have collected: the
step names strictly between the two shared choice steps and the cursor. -/
def fieldKeys (t : Option String) (step : ℕ) : List String :=
  ((stepsOf t).drop 2).take (step - 2)

/-! ## Concrete states used in the closed theorems -/

/-- After starting the income-method-A flow. -/
def trace1 : SysState :=
  { initState with z := startZakatCalculation "income_kaedah_a" }

/-- After choosing the solar calendar. -/
def trace2 : SysState :=
  { trace1 with z := { trace1.z with yearType := some "M" }, pendingYears := some "M" }

/-- After a successful year lookup returning `["2024"]`. -/
def trace3 : SysState :=
  { trace2 with z := { trace2.z with availableYears := ["2024"] }, pendingYears := none }

/-- After choosing year `2024` (now at the free-text `amount` step). -/
def trace4 : SysState :=
  { trace3 with z := { trace3.z with year := some "2024", step := 2 } }

/-- After entering `5000`: the computation request is in flight. -/
def trace5 : SysState :=
  { trace4 with z := { trace4.z with data := [("amount", .num 5000 0)], step := 3 },
                pendingCalc := 1 }

/-- After a second free-text message `7` arriving while the computation is
in flight: the collected-fields map has gained the key `"undefined"` and a
second computation request is in flight. -/
def trace6 : SysState :=
  { trace5 with z := { trace5.z with data := [("amount", .num 5000 0), ("undefined", .num 7 0)],
                                     step := 4 },
                pendingCalc := 2 }

/-- The computation request assembled for the income-method-A session of
`trace4` after `5000` is accepted. -/
def incomeAPayload : CalcPayload :=
  ⟨"/api/calculate-zakat",
   [("type", .jstr "income_kaedah_a"), ("gross_income", .jnum (.num 5000 0)),
    ("year", .jstr "2024"), ("year_type", .jstr "M")]⟩

/-- After the computation service answers `trace5` with a qualifying result
(`reaches_nisab`, amount 3000): the reminder sub-flow owns the session. -/
def remTrace1 : SysState :=
  { z := resetZ,
    rem := { active := true, waitingFor := none,
             data := { name := none, ic_number := none, phone := none,
                       zakat_type := some "pendapatan", zakat_amount := some 3000 } },
    pendingYears := none, pendingNisab := false, pendingCalc := 0, pendingSave := false }

/-- After accepting the reminder offer. -/
def remTrace2 : SysState :=
  { remTrace1 with rem := { remTrace1.rem with waitingFor := some "name" } }

/-- After the name `Ali Bin Abu` is accepted. -/
def remTrace3 : SysState :=
  { remTrace2 with rem := { remTrace2.rem with
      waitingFor := some "ic",
      data := { remTrace2.rem.data with name := some "Ali Bin Abu" } } }

/-- After the identity number `950101-01-5678` is accepted (stored cleaned). -/
def remTrace4 : SysState :=
  { remTrace3 with rem := { remTrace3.rem with
      waitingFor := some "phone",
      data := { remTrace3.rem.data with ic_number := some "950101015678" } } }

/-- After the phone `+60123456789` is accepted (stored normalized): the
save request is in flight. -/
def remTrace5 : SysState :=
  { remTrace4 with
    rem := { remTrace4.rem with
             waitingFor := none,
             data := { remTrace4.rem.data with phone := some "0123456789" } },
    pendingSave := true }

/-- A nisab-inquiry session right after it starts. -/
def nisabTrace1 : SysState := { initState with z := nisabInitState }

/-- The nisab-inquiry session after choosing the lunar calendar. -/
def nisabTrace2 : SysState :=
  { nisabTrace1 with z := { nisabTrace1.z with yearType := some "H" },
                     pendingYears := some "H" }

/-- The nisab-inquiry session after the year lookup fails (static fallback
shown). -/
def nisabTrace3 : SysState := { nisabTrace2 with pendingYears := none }

/-- The nisab-inquiry session after choosing year `1447`: the nisab lookup
is in flight. -/
def nisabTrace4 : SysState :=
  { nisabTrace3 with z := { nisabTrace3.z with year := some "1447" }, pendingNisab := true }

/-! ## Helper lemmas -/

theorem isPrefixOf_mem {l₁ l₂ : List Char} (h : l₁.isPrefixOf l₂ = true) :
    ∀ c ∈ l₁, c ∈ l₂ := by
  induction l₁ generalizing l₂ with
  | nil => intro c hc; cases hc
  | cons a as ih =>
      cases l₂ with
      | nil => simp [List.isPrefixOf] at h
      | cons b bs =>
          simp only [List.isPrefixOf, Bool.and_eq_true, beq_iff_eq] at h
          intro c hc
          rcases List.mem_cons.1 hc with rfl | hc
          · exact h.1 ▸ List.mem_cons_self _ _
          · exact List.mem_cons_of_mem _ (ih h.2 c hc)

theorem hasSub_sub {n l : List Char} (h : hasSub n l = true) : ∀ c ∈ n, c ∈ l := by
  induction l with
  | nil =>
      simp only [hasSub, List.isEmpty_iff] at h
      subst h; intro c hc; cases hc
  | cons b bs ih =>
      simp only [hasSub, Bool.or_eq_true] at h
      rcases h with h | h
      · exact fun c hc => isPrefixOf_mem h c hc
      · exact fun c hc => List.mem_cons_of_mem _ (ih h c hc)

theorem digit_toLower (c : Char) (h : c.isDigit = true) : c.toLower = c := by
  simp [Char.isDigit] at h
  obtain ⟨h1, h2⟩ := h
  simp only [Char.toLower]
  rw [if_neg]
  intro ⟨ha, hb⟩
  have h2' : c.toNat ≤ 57 := h2
  omega

theorem all_digit_no_cancel {l : List Char} (h : l.all Char.isDigit = true) :
    cancelText l = false := by
  cases hc : cancelText l with
  | false => rfl
  | true =>
      exfalso
      simp only [cancelText, Bool.or_eq_true] at hc
      simp only [List.all_eq_true] at h
      rcases hc with hc | hc
      · have hb : 'b' ∈ toLowerL l := hasSub_sub hc 'b' (by decide)
        obtain ⟨c, hcl, hlow⟩ := List.mem_map.1 hb
        rw [digit_toLower c (h c hcl)] at hlow
        subst hlow
        exact absurd (h _ hcl) (by decide)
      · have hb : 'c' ∈ toLowerL l := hasSub_sub hc 'c' (by decide)
        obtain ⟨c, hcl, hlow⟩ := List.mem_map.1 hb
        rw [digit_toLower c (h c hcl)] at hlow
        subst hlow
        exact absurd (h _ hcl) (by decide)

theorem phoneTest_iff (l : List Char) : phoneTest l = true ↔ isLocalPhone l := by
  cases l with
  | nil => simp [phoneTest, isLocalPhone]
  | cons c rest =>
      simp only [phoneTest, Bool.and_eq_true, decide_eq_true_eq, List.all_eq_true,
        isLocalPhone]
      constructor
      · rintro ⟨⟨⟨hc, hall⟩, h9⟩, h10⟩
        have hc' : c = '0' := by simpa using hc
        exact ⟨rest, by rw [hc'], hall, h9, h10⟩
      · rintro ⟨rest', heq, hall, h9, h10⟩
        obtain ⟨rfl, rfl⟩ : c = '0' ∧ rest = rest' := by
          simpa [List.cons.injEq] using heq
        exact ⟨⟨⟨by simp, hall⟩, h9⟩, h10⟩

/-- **C5**: for a reminder phone answer, after stripping spaces and hyphens
an input with the `+60` country prefix (or `60` with enough digits) is
rewritten to the local leading-zero form, and the input is accepted, with
that final form as the stored value, exactly when the final form is a
leading zero followed by 9 to 10 digits. -/
theorem phone_rule (m : String) :
    ((processPhone m.data).isSome = true ↔
        isLocalPhone (phoneNormalize (phoneStrip m.data))) ∧
    (∀ p, processPhone m.data = some p → p = phoneNormalize (phoneStrip m.data)) ∧
    ("+60".data.isPrefixOf (phoneStrip m.data) = true →
        phoneNormalize (phoneStrip m.data) = '0' :: (phoneStrip m.data).drop 3) ∧
    ("+60".data.isPrefixOf (phoneStrip m.data) = false →
        "60".data.isPrefixOf (phoneStrip m.data) = true →
        11 ≤ (phoneStrip m.data).length →
        phoneNormalize (phoneStrip m.data) = '0' :: (phoneStrip m.data).drop 2) := by
  refine ⟨?_, ?_, ?_, ?_⟩
  · by_cases h : phoneTest (phoneNormalize (phoneStrip m.data)) = true
    · simp [processPhone, h, (phoneTest_iff _).1 h]
    · have hn : ¬ isLocalPhone (phoneNormalize (phoneStrip m.data)) := fun hl => by
        simp [(phoneTest_iff _).2 hl] at h
      rw [Bool.not_eq_true] at h
      simp [processPhone, h, hn]
  · intro p hp
    simp only [processPhone] at hp
    split at hp
    · exact (Option.some.inj hp).symm
    · cases hp
  · intro h; simp [phoneNormalize, h]
  · intro h1 h2 h3; simp [phoneNormalize, h1, h2, h3]

/-- **C5** witness: the concrete input `+60123456789` is normalized to the
local form and accepted. -/
theorem phone_rule_witness :
    phoneNormalize (phoneStrip "+60123456789".data) = '0' :: ("+60123456789".data.drop 3) ∧
    "0123456789".data = phoneNormalize (phoneStrip "+60123456789".data) ∧
    processPhone "+60123456789".data = some "0123456789".data := by
  refine ⟨?_, ?_, by decide⟩
  · have h := (phone_rule "+60123456789").2.2.1 (by decide)
    simpa using h
  · exact (phone_rule "+60123456789").2.1 "0123456789".data (by decide)

theorem reach_trace5 : Reach trace5 :=
  ((((Reach.init.step
      (show stepEv initState (.startFlow "income_kaedah_a") = some (trace1, []) by decide)).step
      (show stepEv trace1 (.yearTypeChosen "M") = some (trace2, [Act.yearRequest "M"]) by decide)).step
      (show stepEv trace2 (.yearsResponse (.ok ["2024"])) =
        some (trace3, [Act.showYears ["2024"]]) by decide)).step
      (show stepEv trace3 (.yearChosen "2024") =
        some (trace4, [Act.msg (promptAt (some "income_kaedah_a") 2)]) by decide)).step
      (show stepEv trace4 (.textInput "5000") =
        some (trace5, [Act.calcRequest incomeAPayload]) by decide)

theorem reach_remTrace5 : Reach remTrace5 :=
  ((((reach_trace5.step
      (show stepEv trace5 (.calcResponse (.ok true 3000 none "result")) =
        some (remTrace1, [Act.msg "result", Act.startReminder "pendapatan" 3000,
                          Act.msg remPermissionPrompt]) by decide)).step
      (show stepEv remTrace1 (.remPermission true) =
        some (remTrace2, [Act.msg remNamePrompt]) by decide)).step
      (show stepEv remTrace2 (.textInput "Ali Bin Abu") =
        some (remTrace3, [Act.msg (remIcPrompt (some "Ali Bin Abu"))]) by decide)).step
      (show stepEv remTrace3 (.textInput "950101-01-5678") =
        some (remTrace4, [Act.msg remPhonePrompt]) by decide)).step
      (show stepEv remTrace4 (.textInput "+60123456789") =
        some (remTrace5, [Act.saveRequest (savePayload remTrace5.rem.data)]) by decide)

/-- **C2** counterexample: in a reachable reminder session, the payload
dispatched to the persistence service right after the phone number is
accepted carries only the five fields `name`, `ic_number`, `phone`,
`zakat_type`, `zakat_amount` — neither the year nor the calendar system,
contradicting the seven-field claim. -/
theorem save_payload_missing_year :
    Reach remTrace5 ∧
    stepEv remTrace4 (.textInput "+60123456789") =
      some (remTrace5, [Act.saveRequest (savePayload remTrace5.rem.data)]) ∧
    (savePayload remTrace5.rem.data).map Prod.fst =
      ["name", "ic_number", "phone", "zakat_type", "zakat_amount"] ∧
    "year" ∉ (savePayload remTrace5.rem.data).map Prod.fst ∧
    "year_type" ∉ (savePayload remTrace5.rem.data).map Prod.fst ∧
    "calendarSystem" ∉ (savePayload remTrace5.rem.data).map Prod.fst :=
  ⟨reach_remTrace5, by decide, by decide, by decide, by decide, by decide⟩

/-- **C2** (amended): the payload submitted to the persistence service
contains exactly the five fields `name`, `ic_number`, `phone`,
`zakat_type`, `zakat_amount`; the year and calendar system handed over by
the orchestrator are ignored by `startReminderFlow` (its state does not
depend on them) and are absent from the payload. -/
theorem save_payload_fields (d : RemData) :
    (savePayload d).map Prod.fst =
      ["name", "ic_number", "phone", "zakat_type", "zakat_amount"] ∧
    (∀ zt amt y1 t1 y2 t2, startReminderFlow zt amt y1 t1 = startReminderFlow zt amt y2 t2) :=
  ⟨rfl, fun _ _ _ _ _ _ => rfl⟩

/-- **C4** counterexample: a successful calendar call returning an empty
list substitutes the three-entry fallback but does **not** show the
non-blocking notice, contradicting the claim that the notice accompanies
the fallback in this case. -/
theorem years_empty_success_no_notice :
    fetchAndShowYears "H" (.ok []) = (["1448", "1447", "1446"], false) ∧
    fetchAndShowYears "M" (.ok []) = (["2025", "2024", "2023"], false) := by
  constructor <;> decide

/-- **C4** (amended): a failed calendar call substitutes the fixed 4-entry
fallback for the requested calendar system and shows the notice; a
successful call with an empty list substitutes a fixed 3-entry fallback
without a notice; a successful non-empty list is used verbatim truncated
to 5; and handling the response never issues another calendar request
(no retry) and leaves the session at the year-choice step. -/
theorem year_resolution_fallback :
    (∀ yt, fetchAndShowYears yt .failure = (defaultYears yt, true) ∧
        (defaultYears yt).length = 4) ∧
    (∀ yt, fetchAndShowYears yt (.ok []) = (emptyDisplayYears yt, false) ∧
        (emptyDisplayYears yt).length = 3) ∧
    (∀ yt ys, ys ≠ [] → fetchAndShowYears yt (.ok ys) = (ys.take 5, false)) ∧
    (∀ s r s' (as : List Act), stepEv s (.yearsResponse r) = some (s', as) →
        (∀ yt, Act.yearRequest yt ∉ as) ∧ s'.pendingYears = none ∧
        s'.z.active = s.z.active ∧ s'.z.step = s.z.step ∧ s'.z.year = s.z.year ∧
        s'.z.yearType = s.z.yearType ∧ s'.z.type = s.z.type) := by
  refine ⟨?_, ?_, ?_, ?_⟩
  · intro yt
    by_cases h : yt = "H" <;> simp [fetchAndShowYears, showYearSelection, defaultYears, h]
  · intro yt
    by_cases h : yt = "H" <;> simp [fetchAndShowYears, showYearSelection, emptyDisplayYears, h]
  · intro yt ys hne
    have : (ys.take 5).isEmpty = false := by
      rw [List.isEmpty_eq_false_iff_exists_mem]
      cases ys with
      | nil => exact absurd rfl hne
      | cons a t => exact ⟨a, by simp⟩
    simp [fetchAndShowYears, showYearSelection, this]
  · intro s r s' as h
    simp only [stepEv] at h
    match hp : s.pendingYears with
    | none => rw [hp] at h; cases h
    | some yt =>
        rw [hp] at h
        cases r with
        | ok ys =>
            simp only [fetchAndShowYears, Option.some.injEq, Prod.mk.injEq] at h
            obtain ⟨rfl, rfl⟩ := h
            simp
        | failure =>
            simp only [fetchAndShowYears, Option.some.injEq, Prod.mk.injEq] at h
            obtain ⟨rfl, rfl⟩ := h
            simp

/-- **C4** witness: concrete instances of the amended behavior. -/
theorem year_resolution_fallback_witness :
    fetchAndShowYears "H" (.ok ["1448"]) = (["1448"].take 5, false) ∧
    (∀ yt, Act.yearRequest yt ∉ [Act.showYears ["2024"]]) := by
  constructor
  · exact year_resolution_fallback.2.2.1 "H" ["1448"] (by decide)
  · exact fun yt =>
      (year_resolution_fallback.2.2.2 trace2 (.ok ["2024"]) trace3
        [Act.showYears ["2024"]] (by decide)).1 yt

/-- **C1**: handling a computation-service response starts the reminder
sub-flow if and only if the response reports success with
`reaches_nisab` true and a computed amount strictly greater than 0; every
other outcome (threshold not met, amount 0, failure, unreachable service)
never starts it. -/
theorem reminder_started_iff (s : SysState) (r : CalcResponse) (s' : SysState) (as : List Act)
    (h : stepEv s (.calcResponse r) = some (s', as)) :
    (∃ zt amt, Act.startReminder zt amt ∈ as) ↔
    (∃ amt rt reply, r = .ok true amt rt reply ∧ 0 < amt) := by
  simp only [stepEv] at h
  split at h
  case isFalse => cases h
  case isTrue =>
    have h' : handleCalcResponse s r = (s', as) := Option.some.inj h
    cases r with
    | ok nis amt rt reply =>
        by_cases hq : (nis && decide ((0 : ℚ) < amt)) = true
        · simp only [handleCalcResponse, offerReminder, hq, if_true] at h'
          obtain ⟨rfl, rfl⟩ := Prod.mk.injEq .. ▸ h'
          simp only [Bool.and_eq_true, decide_eq_true_eq] at hq
          constructor
          · intro _
            exact ⟨amt, rt, reply, by rw [hq.1], hq.2⟩
          · intro _
            exact ⟨offerRemLabel s.z (jsOrS rt s.z.type), amt, by simp⟩
        · simp only [handleCalcResponse, hq, if_false, Bool.false_eq_true] at h'
          obtain ⟨rfl, rfl⟩ := Prod.mk.injEq .. ▸ h'
          simp only [Bool.and_eq_true, decide_eq_true_eq, not_and] at hq
          constructor
          · rintro ⟨zt, amt', hmem⟩
            simp at hmem
          · rintro ⟨amt', rt', reply', heq, hpos⟩
            obtain ⟨rfl, rfl, rfl, rfl⟩ :
                nis = true ∧ amt = amt' ∧ rt = rt' ∧ reply = reply' := by
              simpa [CalcResponse.ok.injEq] using heq
            exact absurd hpos (by simpa using hq rfl)
    | err em =>
        simp only [handleCalcResponse] at h'
        obtain ⟨rfl, rfl⟩ := Prod.mk.injEq .. ▸ h'
        constructor
        · rintro ⟨zt, amt', hmem⟩; simp at hmem
        · rintro ⟨amt', rt', reply', heq, -⟩; cases heq
    | unreachable =>
        simp only [handleCalcResponse] at h'
        obtain ⟨rfl, rfl⟩ := Prod.mk.injEq .. ▸ h'
        constructor
        · rintro ⟨zt, amt', hmem⟩; simp at hmem
        · rintro ⟨amt', rt', reply', heq, -⟩; cases heq

/-- **C1** witness: a qualifying response on the in-flight computation of
`trace5` starts the reminder sub-flow. -/
theorem reminder_started_iff_witness :
    (∃ zt amt, Act.startReminder zt amt ∈
        [Act.msg "result", Act.startReminder "pendapatan" 3000, Act.msg remPermissionPrompt]) ↔
    (∃ amt rt reply,
        (CalcResponse.ok true 3000 none "result" : CalcResponse) = .ok true amt rt reply ∧
        0 < amt) :=
  reminder_started_iff trace5 (.ok true 3000 none "result") remTrace1
    [Act.msg "result", Act.startReminder "pendapatan" 3000, Act.msg remPermissionPrompt]
    (by decide)

/-- **C6**: a failure response of the computation service (reported failure
or unreachable service) surfaces the error text (the service message with
the `❌` prefix, or the generic fallback), resets the zakat session to
idle, leaves the reminder handler untouched, and issues neither a reminder
start nor another computation request. -/
theorem calc_failure_to_idle (s s' : SysState) (as : List Act) :
    (∀ em, stepEv s (.calcResponse (.err em)) = some (s', as) →
        s'.z = resetZ ∧ s'.rem = s.rem ∧
        Act.msg ("❌ " ++ em.getD "Ralat pengiraan. Sila cuba lagi.") ∈ as ∧
        (∀ zt amt, Act.startReminder zt amt ∉ as) ∧
        (∀ p, Act.calcRequest p ∉ as)) ∧
    (stepEv s (.calcResponse .unreachable) = some (s', as) →
        s'.z = resetZ ∧ s'.rem = s.rem ∧
        Act.msg "❌ Maaf, sistem ralat. Sila cuba lagi." ∈ as ∧
        (∀ zt amt, Act.startReminder zt amt ∉ as) ∧
        (∀ p, Act.calcRequest p ∉ as)) := by
  constructor
  · intro em h
    simp only [stepEv] at h
    split at h
    case isFalse => cases h
    case isTrue =>
      have h' : handleCalcResponse s (.err em) = (s', as) := Option.some.inj h
      simp only [handleCalcResponse] at h'
      obtain ⟨rfl, rfl⟩ := Prod.mk.injEq .. ▸ h'
      refine ⟨rfl, rfl, by simp, ?_, ?_⟩ <;> intros <;> simp
  · intro h
    simp only [stepEv] at h
    split at h
    case isFalse => cases h
    case isTrue =>
      have h' : handleCalcResponse s .unreachable = (s', as) := Option.some.inj h
      simp only [handleCalcResponse] at h'
      obtain ⟨rfl, rfl⟩ := Prod.mk.injEq .. ▸ h'
      refine ⟨rfl, rfl, by simp, ?_, ?_⟩ <;> intros <;> simp

/-- **C6** witness: a concrete failure response on the in-flight
computation of `trace5`. -/
theorem calc_failure_to_idle_witness :
    ({ trace5 with z := resetZ, pendingCalc := 0 } : SysState).z = resetZ ∧
    ({ trace5 with z := resetZ, pendingCalc := 0 } : SysState).rem = trace5.rem ∧
    Act.msg ("❌ " ++ (some "boom").getD "Ralat pengiraan. Sila cuba lagi.") ∈
      [Act.msg "❌ boom"] ∧
    (∀ zt amt, Act.startReminder zt amt ∉ [Act.msg "❌ boom"]) ∧
    (∀ p, Act.calcRequest p ∉ [Act.msg "❌ boom"]) ∧
    Act.msg "❌ Maaf, sistem ralat. Sila cuba lagi." ∈
      [Act.msg "❌ Maaf, sistem ralat. Sila cuba lagi."] := by
  obtain ⟨h1, h2, h3, h4, h5⟩ :=
    (calc_failure_to_idle trace5 { trace5 with z := resetZ, pendingCalc := 0 }
      [Act.msg "❌ boom"]).1 (some "boom") (by decide)
  obtain ⟨-, -, h6, -, -⟩ :=
    (calc_failure_to_idle trace5 { trace5 with z := resetZ, pendingCalc := 0 }
      [Act.msg "❌ Maaf, sistem ralat. Sila cuba lagi."]).2 (by decide)
  exact ⟨h1, h2, h3, h4, h5, h6⟩

theorem remProcessInput_reject (rm : RemState) (m : String) (f err : String)
    (ha : rm.active = true) (hw : rm.waitingFor = some f)
    (hr : remRejects f (trimChars m.data) = some err) :
    remProcessInput rm m = ⟨rm, [Act.msg err], true, false⟩ := by
  unfold remRejects at hr
  unfold remProcessInput
  rw [ha, hw]
  simp only [Option.isSome_some, Bool.and_true, Bool.not_true, Bool.false_eq_true, if_false]
  split at hr
  case isTrue hcan => cases hr
  case isFalse hcan =>
    rw [Bool.not_eq_true] at hcan
    rw [if_neg (by simp [hcan])]
    split at hr
    case isTrue hemp =>
      rw [if_pos (by simp [hemp])]
      exact congrArg (fun e => RemResult.mk rm [Act.msg e] true false) (Option.some.inj hr)
    case isFalse hemp =>
      rw [Bool.not_eq_true] at hemp
      rw [if_neg (by simp [hemp])]
      split at hr
      case isTrue hf =>
        subst hf
        rw [if_pos rfl]
        split at hr
        case isTrue hlen =>
          rw [if_pos hlen]
          exact congrArg (fun e => RemResult.mk rm [Act.msg e] true false) (Option.some.inj hr)
        case isFalse hlen => cases hr
      case isFalse hf =>
        rw [if_neg (fun hc => hf (Option.some.inj hc))]
        split at hr
        case isTrue hf2 =>
          subst hf2
          rw [if_pos rfl]
          split at hr
          case isTrue hic =>
            rw [if_pos hic]
            exact congrArg (fun e => RemResult.mk rm [Act.msg e] true false) (Option.some.inj hr)
          case isFalse hic => cases hr
        case isFalse hf2 =>
          rw [if_neg (fun hc => hf2 (Option.some.inj hc))]
          split at hr
          case isTrue hf3 =>
            subst hf3
            rw [if_pos rfl]
            split at hr
            case isTrue hph =>
              rw [Option.isNone_iff_eq_none] at hph
              rw [hph]
              exact congrArg (fun e => RemResult.mk rm [Act.msg e] true false)
                (Option.some.inj hr)
            case isFalse hph => cases hr
          case isFalse hf3 => cases hr

/-- **C7**: a validation rejection of a free-text answer — in the primary
flow (the current step's `validateInput` returns `null`) as well as in the
reminder sub-flow (the awaited field's validator rejects, per
`remRejects`) — leaves the entire system state unchanged (in particular
`step`/`collectedFields` and `waitingFor`/`collected`) and emits exactly
the step's error re-prompt. -/
theorem rejection_frame (s : SysState) (m : String) :
    (s.rem.active = false → s.z.active = true → 2 ≤ s.z.step →
      validateInput m (((stepsOf s.z.type).get? s.z.step).getD "undefined") = none →
      stepEv s (.textInput m) =
        some (s, [Act.msg "❌ Nilai tidak sah. Sila masukkan nombor yang betul."])) ∧
    (∀ f err, s.rem.active = true → s.rem.waitingFor = some f →
      remRejects f (trimChars m.data) = some err →
      stepEv s (.textInput m) = some (s, [Act.msg err])) := by
  constructor
  · intro hra hza hstep hval
    simp only [stepEv, zakatProcessInput, hra, Bool.false_eq_true, if_false, hza,
      Bool.not_true, if_neg (by omega : ¬ s.z.step < 2)]
    rw [hval]
  · intro f err hra hw hr
    simp only [stepEv, zakatProcessInput, hra, if_true]
    rw [remProcessInput_reject s.rem m f err hra hw hr]
    simp

/-- **C7** witness: the primary flow rejecting `abc` at the amount step of
`trace4`, and the reminder flow rejecting the too-short name `ab` at
`remTrace2`; both leave the state unchanged. -/
theorem rejection_frame_witness :
    stepEv trace4 (.textInput "abc") =
      some (trace4, [Act.msg "❌ Nilai tidak sah. Sila masukkan nombor yang betul."]) ∧
    stepEv remTrace2 (.textInput "ab") =
      some (remTrace2,
        [Act.msg "Sila masukkan nama penuh yang sah (sekurang-kurangnya 3 aksara). ⚠️"]) := by
  constructor
  · exact (rejection_frame trace4 "abc").1 (by decide) (by decide) (by decide) (by decide)
  · exact (rejection_frame remTrace2 "ab").2 "name"
      "Sila masukkan nama penuh yang sah (sekurang-kurangnya 3 aksara). ⚠️"
      (by decide) (by decide) (by decide)

theorem digit_not_ws {c : Char} (h : c.isDigit = true) : jsWs c = false := by
  cases hw : jsWs c with
  | false => rfl
  | true =>
      exfalso
      simp only [jsWs, Bool.or_eq_true, decide_eq_true_eq] at hw
      rcases hw with ((((rfl | rfl) | rfl) | rfl) | rfl) | rfl <;> simp [Char.isDigit] at h

theorem digit_ne {c : Char} (h : c.isDigit = true) {d : Char} (hd : d.isDigit = false) :
    c ≠ d := fun he => by subst he; rw [h] at hd; cases hd

theorem core_head {s : List Char}
    (h : ¬((s.takeWhile Char.isDigit).isEmpty = true ∧
           ((fracSplit (s.dropWhile Char.isDigit)).1).isEmpty = true)) :
    ∃ c t, s = c :: t ∧ (c.isDigit = true ∨ c = '.') := by
  cases s with
  | nil => simp [fracSplit] at h
  | cons c t =>
      by_cases hd : c.isDigit = true
      · exact ⟨c, t, rfl, Or.inl hd⟩
      · rw [Bool.not_eq_true] at hd
        have hds : (c :: t).takeWhile Char.isDigit = [] := by
          simp [List.takeWhile_cons, hd]
        have hdr : (c :: t).dropWhile Char.isDigit = c :: t := by
          simp [List.dropWhile_cons, hd]
        by_cases hdot : c = '.'
        · exact ⟨c, t, rfl, Or.inr hdot⟩
        · exfalso
          apply h
          rw [hds, hdr]
          simp [fracSplit, hdot]

theorem parse_of_decimal {l : List Char} {m e : ℤ}
    (h : decimalValue? l = some (m, e)) : parseFloatChars l = JSNum.num m e := by
  simp only [decimalValue?] at h
  split at h
  case isTrue => cases h
  case isFalse hcond =>
    have hne : ¬(((signSplit l).2.takeWhile Char.isDigit).isEmpty = true ∧
        ((fracSplit ((signSplit l).2.dropWhile Char.isDigit)).1).isEmpty = true) := by
      intro ⟨h1, h2⟩
      exact hcond (by rw [h1, h2]; simp)
    have hr2 : (fracSplit ((signSplit l).2.dropWhile Char.isDigit)).2 = [] := by
      by_cases hh : (fracSplit ((signSplit l).2.dropWhile Char.isDigit)).2.isEmpty = true
      · exact List.isEmpty_iff.1 hh
      · exact absurd (by rw [Bool.not_eq_true] at hh; rw [hh]; simp) hcond
    obtain ⟨hm, he⟩ := Prod.mk.injEq .. ▸ Option.some.inj h
    obtain ⟨c, t, hst, hclass⟩ := core_head hne
    have hcI : c ≠ 'I' := by
      rcases hclass with hd | rfl
      · exact digit_ne hd (by decide)
      · decide
    have hcws : jsWs c = false := by
      rcases hclass with hd | rfl
      · exact digit_not_ws hd
      · decide
    have hdw : l.dropWhile jsWs = l := by
      cases l with
      | nil => rfl
      | cons c0 t0 =>
          have hc0 : jsWs c0 = false := by
            by_cases hm0 : c0 = '-'
            · subst hm0; decide
            · by_cases hp0 : c0 = '+'
              · subst hp0; decide
              · have : (signSplit (c0 :: t0)).2 = c0 :: t0 := by
                  simp [signSplit, hm0, hp0]
                rw [this] at hst
                obtain ⟨rfl, rfl⟩ : c0 = c ∧ t0 = t := by simpa using hst
                exact hcws
          simp [List.dropWhile_cons, hc0]
    have hinf : "Infinity".data.isPrefixOf ((signSplit l).2) = false := by
      rw [hst, show "Infinity".data = 'I' :: "nfinity".data from rfl]
      simp [List.isPrefixOf, Ne.symm hcI]
    have hgand : (((signSplit l).2.takeWhile Char.isDigit).isEmpty &&
        ((fracSplit ((signSplit l).2.dropWhile Char.isDigit)).1).isEmpty) = false := by
      by_cases h1 : ((signSplit l).2.takeWhile Char.isDigit).isEmpty = true
      · by_cases h2 : ((fracSplit ((signSplit l).2.dropWhile Char.isDigit)).1).isEmpty = true
        · exact absurd ⟨h1, h2⟩ hne
        · rw [Bool.not_eq_true] at h2; rw [h1, h2]; rfl
      · rw [Bool.not_eq_true] at h1; rw [h1]; rfl
    simp only [parseFloatChars, hdw, hinf, Bool.false_eq_true, if_false, hgand, hr2]
    rw [← hm, ← he, zero_sub]

/-- **C3** (amended): every raw answer whose stripped form is a non-negative
whole-string decimal numeral is accepted with exactly that parsed value;
for the optional fields an input that is empty after stripping yields 0;
and a negative decimal numeral is rejected. (Contrapositively, a rejected
input is never a non-negative decimal numeral. Acceptance is however
broader than whole-string decimal numerals: `parseFloat` prefix semantics
also accept inputs with trailing non-numeric characters, see the
counterexample.) -/
theorem amount_rule (s field : String) (m e : ℤ) :
    (decimalValue? (cleanAmount s) = some (m, e) → 0 ≤ m →
       validateInput s field = some (.num m e)) ∧
    ((field = "hutang_saham" ∨ field = "jumlah_pengeluaran") → cleanAmount s = [] →
       validateInput s field = some (.num 0 0)) ∧
    (decimalValue? (cleanAmount s) = some (m, e) → m < 0 →
       validateInput s field = none) := by
  have hnil : decimalValue? ([] : List Char) = none := by decide
  refine ⟨?_, ?_, ?_⟩
  · intro hd h0
    have hp := parse_of_decimal hd
    have hce : (cleanAmount s).isEmpty = false := by
      cases hC : cleanAmount s with
      | nil => rw [hC, hnil] at hd; cases hd
      | cons a t => rfl
    simp only [validateInput, hce, Bool.and_false, Bool.false_eq_true, if_false, hp]
    rw [if_neg (by omega)]
  · intro hf hcl
    have hce : (cleanAmount s).isEmpty = true := by rw [hcl]; rfl
    rcases hf with rfl | rfl <;>
      simp [validateInput, hce]
  · intro hd hneg
    have hp := parse_of_decimal hd
    have hce : (cleanAmount s).isEmpty = false := by
      cases hC : cleanAmount s with
      | nil => rw [hC, hnil] at hd; cases hd
      | cons a t => rfl
    simp only [validateInput, hce, Bool.and_false, Bool.false_eq_true, if_false, hp]
    rw [if_pos hneg]

/-- **C3** counterexample: the input `12abc` survives stripping unchanged,
is not a decimal numeral, and is nevertheless accepted (as 12) by the
validator — refuting "accepted exactly when it parses as a non-negative
decimal number". -/
theorem amount_rule_prefix_garbage :
    validateInput "12abc" "amount" = some (.num 12 0) ∧
    decimalValue? (cleanAmount "12abc") = none ∧
    cleanAmount "12abc" = "12abc".data := by
  refine ⟨by decide, by decide, by decide⟩

/-- **C3** witness: concrete instances of the amended rule. -/
theorem amount_rule_witness :
    validateInput "RM 1,250.75" "amount" = some (.num 125075 (-2)) ∧
    validateInput "" "hutang_saham" = some (.num 0 0) ∧
    validateInput "-5" "amount" = none := by
  refine ⟨(amount_rule "RM 1,250.75" "amount" 125075 (-2)).1 (by decide) (by decide),
          (amount_rule "" "hutang_saham" 0 0).2.1 (Or.inl rfl) (by decide),
          (amount_rule "-5" "amount" (-5) 0).2.2 (by decide) (by decide)⟩

theorem phoneTest_all_digits {p : List Char} (h : phoneTest p = true) :
    p.all Char.isDigit = true := by
  cases p with
  | nil => cases h
  | cons c rest =>
      simp only [phoneTest, Bool.and_eq_true, decide_eq_true_eq] at h
      obtain ⟨⟨⟨hc, hall⟩, -⟩, -⟩ := h
      have hc' : c = '0' := by simpa using hc
      subst hc'
      simp only [List.all_cons, Bool.and_eq_true]
      exact ⟨by decide, hall⟩

theorem remProcessInput_writes (rm : RemState) (m : String) :
    ((remProcessInput rm m).rm.data.name = none ∨
      (remProcessInput rm m).rm.data.name = rm.data.name ∨
      ∃ n, (remProcessInput rm m).rm.data.name = some n ∧ cancelText n.data = false) ∧
    ((remProcessInput rm m).rm.data.ic_number = none ∨
      (remProcessInput rm m).rm.data.ic_number = rm.data.ic_number ∨
      ∃ i, (remProcessInput rm m).rm.data.ic_number = some i ∧
        i.data.all Char.isDigit = true) ∧
    ((remProcessInput rm m).rm.data.phone = none ∨
      (remProcessInput rm m).rm.data.phone = rm.data.phone ∨
      ∃ p, (remProcessInput rm m).rm.data.phone = some p ∧
        p.data.all Char.isDigit = true) := by
  simp only [remProcessInput]
  split
  case isTrue => exact ⟨Or.inr (Or.inl rfl), Or.inr (Or.inl rfl), Or.inr (Or.inl rfl)⟩
  case isFalse =>
    split
    case isTrue => exact ⟨Or.inl rfl, Or.inl rfl, Or.inl rfl⟩
    case isFalse hcan =>
      split
      case isTrue => exact ⟨Or.inr (Or.inl rfl), Or.inr (Or.inl rfl), Or.inr (Or.inl rfl)⟩
      case isFalse hemp =>
        split
        case isTrue hname =>
          split
          case isTrue =>
            exact ⟨Or.inr (Or.inl rfl), Or.inr (Or.inl rfl), Or.inr (Or.inl rfl)⟩
          case isFalse hlen =>
            rw [Bool.not_eq_true] at hcan
            exact ⟨Or.inr (Or.inr ⟨⟨trimChars m.data⟩, rfl, hcan⟩),
                   Or.inr (Or.inl rfl), Or.inr (Or.inl rfl)⟩
        case isFalse hname =>
          split
          case isTrue hicf =>
            split
            case isTrue =>
              exact ⟨Or.inr (Or.inl rfl), Or.inr (Or.inl rfl), Or.inr (Or.inl rfl)⟩
            case isFalse hic =>
              have hic2 : icTest (icClean (trimChars m.data)) = true := by
                revert hic; cases icTest (icClean (trimChars m.data)) <;> simp
              simp only [icTest, Bool.and_eq_true] at hic2
              exact ⟨Or.inr (Or.inl rfl),
                     Or.inr (Or.inr ⟨⟨icClean (trimChars m.data)⟩, rfl, hic2.2⟩),
                     Or.inr (Or.inl rfl)⟩
          case isFalse hicf =>
            split
            case isTrue hphf =>
              split
              · exact ⟨Or.inr (Or.inl rfl), Or.inr (Or.inl rfl), Or.inr (Or.inl rfl)⟩
              · next p hp =>
                  have hpt : phoneTest p = true := by
                    simp only [processPhone] at hp
                    split at hp
                    · next h => exact (Option.some.inj hp) ▸ h
                    · cases hp
                  exact ⟨Or.inr (Or.inl rfl), Or.inr (Or.inl rfl),
                         Or.inr (Or.inr ⟨⟨p⟩, rfl, phoneTest_all_digits hpt⟩)⟩
            case isFalse =>
              exact ⟨Or.inr (Or.inl rfl), Or.inr (Or.inl rfl), Or.inr (Or.inl rfl)⟩

theorem reach_master {s : SysState} (h : Reach s) :
    (s.z.type = some "nisab" → s.z.step = 0) ∧
    (∀ n, s.rem.data.name = some n → cancelText n.data = false) ∧
    (∀ i, s.rem.data.ic_number = some i → i.data.all Char.isDigit = true) ∧
    (∀ p, s.rem.data.phone = some p → p.data.all Char.isDigit = true) := by
  induction h with
  | init =>
      refine ⟨fun _ => rfl, ?_, ?_, ?_⟩ <;> intro x hx <;> cases hx
  | @step s e s' as hr hstep ih =>
      cases e with
      | startFlow t =>
          simp only [stepEv] at hstep
          split at hstep
          · obtain ⟨rfl, rfl⟩ := Prod.mk.injEq .. ▸ Option.some.inj hstep
            exact ⟨fun _ => rfl, ih.2.1, ih.2.2.1, ih.2.2.2⟩
          · cases hstep
      | startNisab =>
          simp only [stepEv] at hstep
          obtain ⟨rfl, rfl⟩ := Prod.mk.injEq .. ▸ Option.some.inj hstep
          exact ⟨fun _ => rfl, ih.2.1, ih.2.2.1, ih.2.2.2⟩
      | yearTypeChosen yt =>
          simp only [stepEv] at hstep
          split at hstep
          · obtain ⟨rfl, rfl⟩ := Prod.mk.injEq .. ▸ Option.some.inj hstep
            exact ⟨fun h => ih.1 h, ih.2.1, ih.2.2.1, ih.2.2.2⟩
          · cases hstep
      | yearsResponse r =>
          simp only [stepEv] at hstep
          split at hstep
          case h_2 => cases hstep
          case h_1 yt hp =>
            cases r with
            | ok ys =>
                simp only at hstep
                obtain ⟨rfl, rfl⟩ := Prod.mk.injEq .. ▸ Option.some.inj hstep
                exact ⟨fun h => ih.1 h, ih.2.1, ih.2.2.1, ih.2.2.2⟩
            | failure =>
                simp only at hstep
                obtain ⟨rfl, rfl⟩ := Prod.mk.injEq .. ▸ Option.some.inj hstep
                exact ⟨fun h => ih.1 h, ih.2.1, ih.2.2.1, ih.2.2.2⟩
      | yearChosen y =>
          simp only [stepEv] at hstep
          split at hstep
          case isFalse => cases hstep
          case isTrue hg =>
            split at hstep
            case isTrue hnis =>
              split at hstep
              case h_1 yy yt hyy hyt =>
                split at hstep
                · obtain ⟨rfl, rfl⟩ := Prod.mk.injEq .. ▸ Option.some.inj hstep
                  refine ⟨fun _ => ?_, ih.2.1, ih.2.2.1, ih.2.2.2⟩
                  simp only [Bool.and_eq_true, decide_eq_true_eq] at hg
                  exact hg.1.2
                · obtain ⟨rfl, rfl⟩ := Prod.mk.injEq .. ▸ Option.some.inj hstep
                  exact ⟨fun _ => rfl, ih.2.1, ih.2.2.1, ih.2.2.2⟩
              case h_2 =>
                obtain ⟨rfl, rfl⟩ := Prod.mk.injEq .. ▸ Option.some.inj hstep
                exact ⟨fun _ => rfl, ih.2.1, ih.2.2.1, ih.2.2.2⟩
            case isFalse hnis =>
              obtain ⟨rfl, rfl⟩ := Prod.mk.injEq .. ▸ Option.some.inj hstep
              exact ⟨fun h => absurd h hnis, ih.2.1, ih.2.2.1, ih.2.2.2⟩
      | textInput m =>
          simp only [stepEv] at hstep
          have h' : zakatProcessInput s m = (s', as) := Option.some.inj hstep
          simp only [zakatProcessInput] at h'
          split at h'
          case isTrue hra =>
            obtain ⟨rfl, rfl⟩ := Prod.mk.injEq .. ▸ h'
            refine ⟨fun h => ih.1 h, ?_, ?_, ?_⟩
            · intro n hx
              rcases (remProcessInput_writes s.rem m).1 with h0 | h0 | ⟨n', hn', hcf⟩
              · rw [h0] at hx; cases hx
              · rw [h0] at hx; exact ih.2.1 n hx
              · rw [hn'] at hx; exact Option.some.inj hx ▸ hcf
            · intro i hx
              rcases (remProcessInput_writes s.rem m).2.1 with h0 | h0 | ⟨i', hi', hdg⟩
              · rw [h0] at hx; cases hx
              · rw [h0] at hx; exact ih.2.2.1 i hx
              · rw [hi'] at hx; exact Option.some.inj hx ▸ hdg
            · intro p hx
              rcases (remProcessInput_writes s.rem m).2.2 with h0 | h0 | ⟨p', hp', hdg⟩
              · rw [h0] at hx; cases hx
              · rw [h0] at hx; exact ih.2.2.2 p hx
              · rw [hp'] at hx; exact Option.some.inj hx ▸ hdg
          case isFalse hra =>
            split at h'
            case isTrue =>
              obtain ⟨rfl, rfl⟩ := Prod.mk.injEq .. ▸ h'
              exact ih
            case isFalse hza =>
              split at h'
              case isTrue =>
                obtain ⟨rfl, rfl⟩ := Prod.mk.injEq .. ▸ h'
                exact ih
              case isFalse hlt =>
                split at h'
                case h_1 =>
                  obtain ⟨rfl, rfl⟩ := Prod.mk.injEq .. ▸ h'
                  exact ih
                case h_2 v hv =>
                  split at h'
                  case isTrue =>
                    split at h'
                    case h_1 p hp =>
                      obtain ⟨rfl, rfl⟩ := Prod.mk.injEq .. ▸ h'
                      refine ⟨fun h => ?_, ih.2.1, ih.2.2.1, ih.2.2.2⟩
                      exact absurd (ih.1 h) (by omega)
                    case h_2 hp =>
                      obtain ⟨rfl, rfl⟩ := Prod.mk.injEq .. ▸ h'
                      exact ⟨fun h => Option.noConfusion h, ih.2.1, ih.2.2.1, ih.2.2.2⟩
                  case isFalse =>
                    obtain ⟨rfl, rfl⟩ := Prod.mk.injEq .. ▸ h'
                    refine ⟨fun h => ?_, ih.2.1, ih.2.2.1, ih.2.2.2⟩
                    exact absurd (ih.1 h) (by omega)
      | cancelZakat =>
          simp only [stepEv] at hstep
          split at hstep
          · obtain ⟨rfl, rfl⟩ := Prod.mk.injEq .. ▸ Option.some.inj hstep
            exact ⟨fun h => Option.noConfusion h, ih.2.1, ih.2.2.1, ih.2.2.2⟩
          · obtain ⟨rfl, rfl⟩ := Prod.mk.injEq .. ▸ Option.some.inj hstep
            exact ih
      | calcResponse r =>
          simp only [stepEv] at hstep
          split at hstep
          case isFalse => cases hstep
          case isTrue =>
            have h' : handleCalcResponse s r = (s', as) := Option.some.inj hstep
            cases r with
            | ok nis amt rtype reply =>
                simp only [handleCalcResponse, offerReminder, startReminderFlow] at h'
                split at h'
                · obtain ⟨rfl, rfl⟩ := Prod.mk.injEq .. ▸ h'
                  exact ⟨fun h => Option.noConfusion h, fun x hx => Option.noConfusion hx,
                         fun x hx => Option.noConfusion hx, fun x hx => Option.noConfusion hx⟩
                · obtain ⟨rfl, rfl⟩ := Prod.mk.injEq .. ▸ h'
                  exact ⟨fun h => Option.noConfusion h, ih.2.1, ih.2.2.1, ih.2.2.2⟩
            | err em =>
                simp only [handleCalcResponse] at h'
                obtain ⟨rfl, rfl⟩ := Prod.mk.injEq .. ▸ h'
                exact ⟨fun h => Option.noConfusion h, ih.2.1, ih.2.2.1, ih.2.2.2⟩
            | unreachable =>
                simp only [handleCalcResponse] at h'
                obtain ⟨rfl, rfl⟩ := Prod.mk.injEq .. ▸ h'
                exact ⟨fun h => Option.noConfusion h, ih.2.1, ih.2.2.1, ih.2.2.2⟩
      | nisabResponse ok reply =>
          simp only [stepEv] at hstep
          split at hstep
          · obtain ⟨rfl, rfl⟩ := Prod.mk.injEq .. ▸ Option.some.inj hstep
            exact ⟨fun h => Option.noConfusion h, ih.2.1, ih.2.2.1, ih.2.2.2⟩
          · cases hstep
      | remPermission yes =>
          simp only [stepEv] at hstep
          split at hstep
          case isTrue =>
            split at hstep
            · obtain ⟨rfl, rfl⟩ := Prod.mk.injEq .. ▸ Option.some.inj hstep
              exact ⟨fun h => ih.1 h, ih.2.1, ih.2.2.1, ih.2.2.2⟩
            · obtain ⟨rfl, rfl⟩ := Prod.mk.injEq .. ▸ Option.some.inj hstep
              exact ⟨fun h => ih.1 h, fun x hx => Option.noConfusion hx, fun x hx => Option.noConfusion hx,
                     fun x hx => Option.noConfusion hx⟩
          case isFalse => cases hstep
      | saveResponse ok error =>
          simp only [stepEv] at hstep
          split at hstep
          · obtain ⟨rfl, rfl⟩ := Prod.mk.injEq .. ▸ Option.some.inj hstep
            exact ⟨fun h => ih.1 h, fun x hx => Option.noConfusion hx, fun x hx => Option.noConfusion hx,
                   fun x hx => Option.noConfusion hx⟩
          · cases hstep


/-- **C8**: in the nisab-inquiry variant, the year-choice event issues a
nisab request carrying exactly the year and calendar system (no field
collection), any nisab response returns the session to idle after
presenting the result (or the error notice), and no reachable
nisab-inquiry session ever has its step cursor at a free-text field
(`awaitingField` would be `step ≥ 2`; it stays 0). -/
theorem nisab_no_field_steps :
    (∀ s y yt s' (as : List Act), s.z.type = some "nisab" → s.z.yearType = some yt →
        y ≠ "" → yt ≠ "" → stepEv s (.yearChosen y) = some (s', as) →
        as = [Act.nisabRequest y yt] ∧ s'.pendingNisab = true ∧ s'.z.step = 0 ∧
        s'.z.year = some y) ∧
    (∀ s ok reply s' (as : List Act), stepEv s (.nisabResponse ok reply) = some (s', as) →
        s'.z = resetZ ∧
        as = [Act.msg (if ok then reply
                       else "❌ Ralat mendapatkan maklumat nisab. Sila cuba lagi.")]) ∧
    (∀ s, Reach s → s.z.type = some "nisab" → s.z.step = 0) := by
  refine ⟨?_, ?_, ?_⟩
  · intro s y yt s' as htype hyt hy hyt2 h
    simp only [stepEv] at h
    split at h
    case isFalse => cases h
    case isTrue hg =>
      simp only [htype, hyt, reduceIte] at h
      rw [if_pos (by simp [hy, hyt2])] at h
      obtain ⟨rfl, rfl⟩ := Prod.mk.injEq .. ▸ Option.some.inj h
      simp only [Bool.and_eq_true, decide_eq_true_eq] at hg
      exact ⟨rfl, rfl, hg.1.2, rfl⟩
  · intro s ok reply s' as h
    simp only [stepEv] at h
    split at h
    · obtain ⟨rfl, rfl⟩ := Prod.mk.injEq .. ▸ Option.some.inj h
      exact ⟨rfl, rfl⟩
    · cases h
  · exact fun s hr h => (reach_master hr).1 h

theorem reach_nisabTrace1 : Reach nisabTrace1 :=
  Reach.init.step (show stepEv initState .startNisab = some (nisabTrace1, []) by decide)

/-- **C8** witness: the concrete nisab run `nisabTrace1 … nisabTrace4`. -/
theorem nisab_no_field_steps_witness :
    ([Act.nisabRequest "1447" "H"] = [Act.nisabRequest "1447" "H"] ∧
      nisabTrace4.pendingNisab = true ∧ nisabTrace4.z.step = 0 ∧
      nisabTrace4.z.year = some "1447") ∧
    (({ nisabTrace4 with z := resetZ, pendingNisab := false } : SysState).z = resetZ) ∧
    nisabTrace1.z.step = 0 := by
  refine ⟨?_, ?_, ?_⟩
  · exact nisab_no_field_steps.1 nisabTrace3 "1447" "H" nisabTrace4
      [Act.nisabRequest "1447" "H"] rfl rfl (by decide) (by decide) (by decide)
  · exact (nisab_no_field_steps.2.1 nisabTrace4 true "maklumat nisab"
      { nisabTrace4 with z := resetZ, pendingNisab := false }
      [Act.msg (if true then "maklumat nisab"
                else "❌ Ralat mendapatkan maklumat nisab. Sila cuba lagi.")] (by decide)).1
  · exact nisab_no_field_steps.2.2 nisabTrace1 reach_nisabTrace1 rfl

/-- **C10**: while the reminder sub-flow awaits any field, a message
containing `batal` or `cancel` (case-insensitively) aborts the whole
sub-flow, discarding all partially collected fields; consequently, in
every reachable state, no stored name, identity number or phone value
contains either substring. -/
theorem reminder_cancel_keywords (s : SysState) (m : String) :
    (∀ f, s.rem.active = true → s.rem.waitingFor = some f →
        cancelText (trimChars m.data) = true →
        stepEv s (.textInput m) =
          some ({ s with rem := resetRem },
                [Act.msg "❌ Pendaftaran peringatan dibatalkan."])) ∧
    (Reach s →
        (∀ n, s.rem.data.name = some n → cancelText n.data = false) ∧
        (∀ i, s.rem.data.ic_number = some i → cancelText i.data = false) ∧
        (∀ p, s.rem.data.phone = some p → cancelText p.data = false)) := by
  constructor
  · intro f ha hw hcan
    simp only [stepEv, zakatProcessInput, ha, if_true]
    rw [show remProcessInput s.rem m =
        ⟨resetRem, [Act.msg "❌ Pendaftaran peringatan dibatalkan."], true, false⟩ from by
      simp only [remProcessInput, ha, hw]
      rw [if_neg (by simp)]
      rw [if_pos hcan]]
    simp
  · intro hr
    have H := reach_master hr
    exact ⟨H.2.1, fun i hx => all_digit_no_cancel (H.2.2.1 i hx),
           fun p hx => all_digit_no_cancel (H.2.2.2 p hx)⟩

/-- **C10** witness: `batal` aborts at the name step; the stored name of
the reachable `remTrace5` is cancel-keyword-free. -/
theorem reminder_cancel_keywords_witness :
    stepEv remTrace2 (.textInput "batal") =
      some ({ remTrace2 with rem := resetRem },
            [Act.msg "❌ Pendaftaran peringatan dibatalkan."]) ∧
    cancelText ("Ali Bin Abu".data) = false := by
  constructor
  · exact (reminder_cancel_keywords remTrace2 "batal").1 "name" rfl rfl (by decide)
  · exact ((reminder_cancel_keywords remTrace5 "x").2 reach_remTrace5).1 "Ali Bin Abu" rfl

theorem lookup_mem {d : List (String × JSNum)} {k : String} {v : JSNum}
    (h : lookupData d k = some v) : k ∈ keysOf d := by
  unfold lookupData at h
  obtain ⟨p, hfind, -⟩ : ∃ p, d.find? (fun p => p.1 = k) = some p ∧ p.2 = v := by
    cases hf : d.find? (fun p => p.1 = k) with
    | none => rw [hf] at h; cases h
    | some p => rw [hf] at h; exact ⟨p, rfl, Option.some.inj h⟩
  have hp := List.find?_some hfind
  have hmem := List.mem_of_find?_eq_some hfind
  simp only [decide_eq_true_eq] at hp
  exact hp ▸ List.mem_map_of_mem Prod.fst hmem

theorem setKey_not_mem {d : List (String × JSNum)} {k : String} (v : JSNum)
    (h : k ∉ keysOf d) : setKey d k v = d ++ [(k, v)] := by
  unfold setKey
  rw [if_neg]
  intro hany
  simp only [List.any_eq_true, decide_eq_true_eq] at hany
  obtain ⟨p, hmem, hpk⟩ := hany
  exact h (hpk ▸ List.mem_map_of_mem Prod.fst hmem)

theorem lookup_append_left {d : List (String × JSNum)} {k : String} {v : JSNum}
    (l2 : List (String × JSNum)) (h : lookupData d k = some v) :
    lookupData (d ++ l2) k = some v := by
  unfold lookupData at h ⊢
  rw [List.find?_append]
  cases hf : d.find? (fun p => p.1 = k) with
  | none => rw [hf] at h; cases h
  | some p => rw [hf] at h; simpa [Option.or] using h

theorem fieldKeys_succ {t : String} {step : ℕ} (h2 : 2 ≤ step)
    (hlt : step < (zakatSteps t).length) :
    fieldKeys (some t) (step + 1) =
      fieldKeys (some t) step ++ [(zakatSteps t).get ⟨step, hlt⟩] := by
  unfold fieldKeys stepsOf
  have he : step + 1 - 2 = (step - 2) + 1 := by omega
  rw [he, List.take_succ]
  congr 1
  rw [List.getElem?_drop]
  have he2 : 2 + (step - 2) = step := by omega
  rw [he2, List.getElem?_eq_getElem hlt]
  rfl

theorem get_not_mem_fieldKeys {t : String} (hnd : (zakatSteps t).Nodup) {step : ℕ}
    (hlt : step < (zakatSteps t).length) :
    (zakatSteps t).get ⟨step, hlt⟩ ∉ fieldKeys (some t) step := by
  intro hmem
  unfold fieldKeys stepsOf at hmem
  obtain ⟨⟨i, hi⟩, hget⟩ := List.mem_iff_get.1 hmem
  have hi1 : i < step - 2 := by
    have := hi; rw [List.length_take] at this; omega
  have hi2 : i < ((zakatSteps t).drop 2).length := by
    have := hi; rw [List.length_take] at this
    exact lt_of_lt_of_le this (min_le_right _ _)
  rw [List.get_take'] at hget
  have hlt2 : 2 + i < (zakatSteps t).length := by
    rw [List.length_drop] at hi2; omega
  have hgd : ((zakatSteps t).drop 2).get ⟨i, hi2⟩ = (zakatSteps t).get ⟨2 + i, hlt2⟩ :=
    (List.get_drop _ _).symm
  have heq : (zakatSteps t).get ⟨2 + i, hlt2⟩ = (zakatSteps t).get ⟨step, hlt⟩ := by
    rw [← hgd]
    convert hget using 2
  have := (hnd.get_inj_iff).1 heq
  have : 2 + i = step := congrArg Fin.val this
  omega

theorem calcTypes_facts {t : String} (h : t ∈ calcTypes) :
    3 ≤ (zakatSteps t).length ∧ (zakatSteps t).Nodup ∧ "undefined" ∉ zakatSteps t := by
  simp only [calcTypes, List.mem_cons, List.not_mem_nil, or_false] at h
  rcases h with rfl | rfl | rfl | rfl | rfl | rfl | rfl <;>
    exact ⟨by decide, by decide, by decide⟩

theorem reachSafe_reach {s : SysState} (h : ReachSafe s) : Reach s := by
  induction h with
  | init => exact Reach.init
  | step hr hstep hsafe ih => exact ih.step hstep

theorem reachSafe_master {s : SysState} (h : ReachSafe s) :
    (s.z.active = false → s.z.data = [] ∧ s.z.step = 0 ∧ s.z.type = none) ∧
    (s.z.active = true →
      (s.z.type = some "nisab" ∧ s.z.step = 0 ∧ s.z.data = []) ∨
      (∃ t, s.z.type = some t ∧ t ∈ calcTypes ∧
        ((s.z.step = 0 ∧ s.z.data = []) ∨
         (2 ≤ s.z.step ∧ s.z.step ≤ (zakatSteps t).length ∧
          keysOf s.z.data = fieldKeys (some t) s.z.step)))) := by
  induction h with
  | init =>
      refine ⟨fun _ => ⟨rfl, rfl, rfl⟩, fun h => ?_⟩
      cases h
  | @step s e s' as hr hstep hsafe ih =>
      cases e with
      | startFlow t =>
          simp only [stepEv] at hstep
          split at hstep
          case isTrue ht =>
            obtain ⟨rfl, rfl⟩ := Prod.mk.injEq .. ▸ Option.some.inj hstep
            exact ⟨fun h => Bool.noConfusion h, fun _ => Or.inr ⟨t, rfl, ht, Or.inl ⟨rfl, rfl⟩⟩⟩
          case isFalse => cases hstep
      | startNisab =>
          simp only [stepEv] at hstep
          obtain ⟨rfl, rfl⟩ := Prod.mk.injEq .. ▸ Option.some.inj hstep
          exact ⟨fun h => Bool.noConfusion h, fun _ => Or.inl ⟨rfl, rfl, rfl⟩⟩
      | yearTypeChosen yt =>
          simp only [stepEv] at hstep
          split at hstep
          case isTrue hg =>
            obtain ⟨rfl, rfl⟩ := Prod.mk.injEq .. ▸ Option.some.inj hstep
            simp only [Bool.and_eq_true, Option.isNone_iff_eq_none, decide_eq_true_eq] at hg
            have hact : s.z.active = true := hg.1.1.1.2
            exact ⟨fun h => Bool.noConfusion (hact.symm.trans h), fun _ => ih.2 hact⟩
          case isFalse => cases hstep
      | yearsResponse r =>
          simp only [stepEv] at hstep
          split at hstep
          case h_2 => cases hstep
          case h_1 yt hp =>
            cases r with
            | ok ys =>
                simp only at hstep
                obtain ⟨rfl, rfl⟩ := Prod.mk.injEq .. ▸ Option.some.inj hstep
                exact ⟨fun h => ih.1 h, fun h => ih.2 h⟩
            | failure =>
                simp only at hstep
                obtain ⟨rfl, rfl⟩ := Prod.mk.injEq .. ▸ Option.some.inj hstep
                exact ⟨fun h => ih.1 h, fun h => ih.2 h⟩
      | yearChosen y =>
          simp only [stepEv] at hstep
          split at hstep
          case isFalse => cases hstep
          case isTrue hg =>
            simp only [Bool.and_eq_true, Option.isNone_iff_eq_none, decide_eq_true_eq] at hg
            have hact : s.z.active = true := hg.1.1.1.1
            have hstep0 : s.z.step = 0 := hg.1.2
            have hdata : s.z.data = [] := by
              rcases ih.2 hact with ⟨-, -, h3⟩ | ⟨t, -, -, hsub⟩
              · exact h3
              · rcases hsub with ⟨-, h3⟩ | ⟨h2s, -, -⟩
                · exact h3
                · omega
            split at hstep
            case isTrue hnis =>
              split at hstep
              case h_1 yy yt hyy hyt =>
                split at hstep
                · obtain ⟨rfl, rfl⟩ := Prod.mk.injEq .. ▸ Option.some.inj hstep
                  exact ⟨fun h => Bool.noConfusion (hact.symm.trans h),
                         fun _ => Or.inl ⟨hnis, hstep0, hdata⟩⟩
                · obtain ⟨rfl, rfl⟩ := Prod.mk.injEq .. ▸ Option.some.inj hstep
                  exact ⟨fun h => Bool.noConfusion h, fun _ => Or.inl ⟨rfl, rfl, rfl⟩⟩
              case h_2 =>
                obtain ⟨rfl, rfl⟩ := Prod.mk.injEq .. ▸ Option.some.inj hstep
                exact ⟨fun h => Bool.noConfusion h, fun _ => Or.inl ⟨rfl, rfl, rfl⟩⟩
            case isFalse hnis =>
              obtain ⟨rfl, rfl⟩ := Prod.mk.injEq .. ▸ Option.some.inj hstep
              refine ⟨fun h => Bool.noConfusion (hact.symm.trans h), fun _ => ?_⟩
              rcases ih.2 hact with ⟨h1, -, -⟩ | ⟨t, h1, h2, -⟩
              · exact absurd h1 hnis
              · refine Or.inr ⟨t, h1, h2, Or.inr ⟨Nat.le_refl 2, ?_, ?_⟩⟩
                · have h3 := (calcTypes_facts h2).1
                  show 2 ≤ (zakatSteps t).length
                  omega
                · show keysOf s.z.data = fieldKeys (some t) 2
                  rw [hdata]
                  rfl
      | textInput m =>
          simp only [stepEv] at hstep
          have h' : zakatProcessInput s m = (s', as) := Option.some.inj hstep
          simp only [zakatProcessInput] at h'
          split at h'
          case isTrue hra =>
            obtain ⟨rfl, rfl⟩ := Prod.mk.injEq .. ▸ h'
            exact ⟨fun h => ih.1 h, fun h => ih.2 h⟩
          case isFalse hra =>
            split at h'
            case isTrue =>
              obtain ⟨rfl, rfl⟩ := Prod.mk.injEq .. ▸ h'
              exact ih
            case isFalse hza =>
              have hact : s.z.active = true := by
                revert hza; cases s.z.active <;> simp
              split at h'
              case isTrue =>
                obtain ⟨rfl, rfl⟩ := Prod.mk.injEq .. ▸ h'
                exact ih
              case isFalse hlt2 =>
                split at h'
                case h_1 =>
                  obtain ⟨rfl, rfl⟩ := Prod.mk.injEq .. ▸ h'
                  exact ih
                case h_2 v hv =>
                  obtain ⟨t, htype, htc, h2s, hlen, hkeys⟩ :
                      ∃ t, s.z.type = some t ∧ t ∈ calcTypes ∧ 2 ≤ s.z.step ∧
                        s.z.step ≤ (zakatSteps t).length ∧
                        keysOf s.z.data = fieldKeys (some t) s.z.step := by
                    rcases ih.2 hact with ⟨-, hstep0, -⟩ | ⟨t, h1, h2, hsub⟩
                    · omega
                    · rcases hsub with ⟨hstep0, -⟩ | ⟨ha, hb, hc⟩
                      · omega
                      · exact ⟨t, h1, h2, ha, hb, hc⟩
                  have hsafe' : s.z.step < (stepsOf s.z.type).length :=
                    hsafe m rfl hact
                  have hsafe2 : s.z.step < (zakatSteps t).length := by
                    rw [htype] at hsafe'; exact hsafe'
                  have hnd := (calcTypes_facts htc).2.1
                  have hkey : ((stepsOf s.z.type).get? s.z.step).getD "undefined" =
                      (zakatSteps t).get ⟨s.z.step, hsafe2⟩ := by
                    rw [htype]
                    show ((zakatSteps t).get? s.z.step).getD "undefined" = _
                    rw [List.get?_eq_get hsafe2]
                    rfl
                  rw [hkey] at h'
                  have hnotmem : (zakatSteps t).get ⟨s.z.step, hsafe2⟩ ∉ keysOf s.z.data := by
                    rw [hkeys]
                    exact get_not_mem_fieldKeys hnd hsafe2
                  have hsk := setKey_not_mem (d := s.z.data) v hnotmem
                  have hkeys' : keysOf (setKey s.z.data
                      ((zakatSteps t).get ⟨s.z.step, hsafe2⟩) v) =
                      fieldKeys (some t) (s.z.step + 1) := by
                    rw [hsk, fieldKeys_succ h2s hsafe2, ← hkeys]
                    simp [keysOf]
                  split at h'
                  case isTrue hdisp =>
                    split at h'
                    case h_1 p hp =>
                      obtain ⟨rfl, rfl⟩ := Prod.mk.injEq .. ▸ h'
                      refine ⟨fun h => Bool.noConfusion (hact.symm.trans h), fun _ => ?_⟩
                      refine Or.inr ⟨t, htype, htc, Or.inr ⟨?_, ?_, hkeys'⟩⟩
                      · show 2 ≤ s.z.step + 1
                        omega
                      · show s.z.step + 1 ≤ (zakatSteps t).length
                        omega
                    case h_2 hp =>
                      obtain ⟨rfl, rfl⟩ := Prod.mk.injEq .. ▸ h'
                      exact ⟨fun _ => ⟨rfl, rfl, rfl⟩, fun h => Bool.noConfusion h⟩
                  case isFalse hdisp =>
                    obtain ⟨rfl, rfl⟩ := Prod.mk.injEq .. ▸ h'
                    refine ⟨fun h => Bool.noConfusion (hact.symm.trans h), fun _ => ?_⟩
                    refine Or.inr ⟨t, htype, htc, Or.inr ⟨?_, ?_, hkeys'⟩⟩
                    · show 2 ≤ s.z.step + 1
                      omega
                    · show s.z.step + 1 ≤ (zakatSteps t).length
                      omega
      | cancelZakat =>
          simp only [stepEv] at hstep
          split at hstep
          · obtain ⟨rfl, rfl⟩ := Prod.mk.injEq .. ▸ Option.some.inj hstep
            exact ⟨fun _ => ⟨rfl, rfl, rfl⟩, fun h => Bool.noConfusion h⟩
          · obtain ⟨rfl, rfl⟩ := Prod.mk.injEq .. ▸ Option.some.inj hstep
            exact ih
      | calcResponse r =>
          simp only [stepEv] at hstep
          split at hstep
          case isFalse => cases hstep
          case isTrue =>
            have h' : handleCalcResponse s r = (s', as) := Option.some.inj hstep
            cases r with
            | ok nis amt rtype reply =>
                simp only [handleCalcResponse, offerReminder, startReminderFlow] at h'
                split at h'
                · obtain ⟨rfl, rfl⟩ := Prod.mk.injEq .. ▸ h'
                  exact ⟨fun _ => ⟨rfl, rfl, rfl⟩, fun h => Bool.noConfusion h⟩
                · obtain ⟨rfl, rfl⟩ := Prod.mk.injEq .. ▸ h'
                  exact ⟨fun _ => ⟨rfl, rfl, rfl⟩, fun h => Bool.noConfusion h⟩
            | err em =>
                simp only [handleCalcResponse] at h'
                obtain ⟨rfl, rfl⟩ := Prod.mk.injEq .. ▸ h'
                exact ⟨fun _ => ⟨rfl, rfl, rfl⟩, fun h => Bool.noConfusion h⟩
            | unreachable =>
                simp only [handleCalcResponse] at h'
                obtain ⟨rfl, rfl⟩ := Prod.mk.injEq .. ▸ h'
                exact ⟨fun _ => ⟨rfl, rfl, rfl⟩, fun h => Bool.noConfusion h⟩
      | nisabResponse ok reply =>
          simp only [stepEv] at hstep
          split at hstep
          · obtain ⟨rfl, rfl⟩ := Prod.mk.injEq .. ▸ Option.some.inj hstep
            exact ⟨fun _ => ⟨rfl, rfl, rfl⟩, fun h => Bool.noConfusion h⟩
          · cases hstep
      | remPermission yes =>
          simp only [stepEv] at hstep
          split at hstep
          case isTrue =>
            split at hstep
            · obtain ⟨rfl, rfl⟩ := Prod.mk.injEq .. ▸ Option.some.inj hstep
              exact ⟨fun h => ih.1 h, fun h => ih.2 h⟩
            · obtain ⟨rfl, rfl⟩ := Prod.mk.injEq .. ▸ Option.some.inj hstep
              exact ⟨fun h => ih.1 h, fun h => ih.2 h⟩
          case isFalse => cases hstep
      | saveResponse ok error =>
          simp only [stepEv] at hstep
          split at hstep
          · obtain ⟨rfl, rfl⟩ := Prod.mk.injEq .. ▸ Option.some.inj hstep
            exact ⟨fun h => ih.1 h, fun h => ih.2 h⟩
          · cases hstep

theorem key_fresh {s : SysState} (h : ReachSafe s) (hact : s.z.active = true) :
    ((stepsOf s.z.type).get? s.z.step).getD "undefined" ∉ keysOf s.z.data := by
  rcases (reachSafe_master h).2 hact with ⟨-, -, hdata⟩ | ⟨t, htype, htc, hsub⟩
  · rw [hdata]; intro hx; cases hx
  · rcases hsub with ⟨-, hdata⟩ | ⟨h2s, hlen, hkeys⟩
    · rw [hdata]; intro hx; cases hx
    · rw [hkeys, htype]
      cases hK : (zakatSteps t).get? s.z.step with
      | none =>
          simp only [stepsOf, hK, Option.getD_none]
          intro hx
          exact (calcTypes_facts htc).2.2
            (List.mem_of_mem_drop (List.mem_of_mem_take
              (show "undefined" ∈ ((zakatSteps t).drop 2).take (s.z.step - 2) from by
                simpa [fieldKeys, stepsOf] using hx)))
      | some k =>
          have hlt : s.z.step < (zakatSteps t).length := by
            by_contra hge
            rw [List.get?_eq_none.2 (by omega)] at hK
            cases hK
          rw [List.get?_eq_get hlt] at hK
          simp only [stepsOf, List.get?_eq_get hlt, Option.getD_some]
          exact get_not_mem_fieldKeys (calcTypes_facts htc).2.1 hlt

/-- **C9** (amended): provided no free-text message is processed after the
final field of a flow has been accepted (while the computation call is in
flight), every reachable active session has `collectedFields` equal to
exactly the step names already passed (each field written once, at the
step whose name matches, all keys declared in the active variant's step
list, without duplicates), and no event can overwrite a stored field
without clearing the whole session. -/
theorem collected_fields_invariant (s : SysState) (h : ReachSafe s) :
    (s.z.active = true →
        keysOf s.z.data = fieldKeys s.z.type s.z.step ∧
        (keysOf s.z.data).Nodup ∧
        (∀ k ∈ keysOf s.z.data, k ∈ stepsOf s.z.type)) ∧
    (∀ e s' (as : List Act), stepEv s e = some (s', as) →
        ∀ k v, lookupData s.z.data k = some v →
          s'.z.data = [] ∨ lookupData s'.z.data k = some v) := by
  constructor
  · intro hact
    rcases (reachSafe_master h).2 hact with ⟨htype, hstep0, hdata⟩ | ⟨t, htype, htc, hsub⟩
    · rw [hdata, htype, hstep0]
      exact ⟨rfl, List.nodup_nil, fun k hk => absurd hk (List.not_mem_nil k)⟩
    · rcases hsub with ⟨hstep0, hdata⟩ | ⟨h2s, hlen, hkeys⟩
      · rw [hdata, htype, hstep0]
        refine ⟨?_, List.nodup_nil, fun k hk => absurd hk (List.not_mem_nil k)⟩
        show ([] : List String) = ((zakatSteps t).drop 2).take (0 - 2)
        rfl
      · refine ⟨htype ▸ hkeys, ?_, ?_⟩
        · rw [hkeys]
          exact ((List.take_sublist _ _).trans (List.drop_sublist _ _)).nodup
            (calcTypes_facts htc).2.1
        · intro k hk
          rw [hkeys] at hk
          rw [htype]
          exact List.mem_of_mem_drop (List.mem_of_mem_take
            (by simpa [fieldKeys, stepsOf] using hk))
  · intro e s' as hstep k v hkv
    cases e with
    | startFlow t =>
        simp only [stepEv] at hstep
        split at hstep
        · obtain ⟨rfl, rfl⟩ := Prod.mk.injEq .. ▸ Option.some.inj hstep
          exact Or.inl rfl
        · cases hstep
    | startNisab =>
        simp only [stepEv] at hstep
        obtain ⟨rfl, rfl⟩ := Prod.mk.injEq .. ▸ Option.some.inj hstep
        exact Or.inl rfl
    | yearTypeChosen yt =>
        simp only [stepEv] at hstep
        split at hstep
        · obtain ⟨rfl, rfl⟩ := Prod.mk.injEq .. ▸ Option.some.inj hstep
          exact Or.inr hkv
        · cases hstep
    | yearsResponse r =>
        simp only [stepEv] at hstep
        split at hstep
        case h_2 => cases hstep
        case h_1 yt hp =>
          cases r with
          | ok ys =>
              simp only at hstep
              obtain ⟨rfl, rfl⟩ := Prod.mk.injEq .. ▸ Option.some.inj hstep
              exact Or.inr hkv
          | failure =>
              simp only at hstep
              obtain ⟨rfl, rfl⟩ := Prod.mk.injEq .. ▸ Option.some.inj hstep
              exact Or.inr hkv
    | yearChosen y =>
        simp only [stepEv] at hstep
        split at hstep
        case isFalse => cases hstep
        case isTrue hg =>
          split at hstep
          case isTrue hnis =>
            split at hstep
            case h_1 yy yt hyy hyt =>
              split at hstep
              · obtain ⟨rfl, rfl⟩ := Prod.mk.injEq .. ▸ Option.some.inj hstep
                exact Or.inr hkv
              · obtain ⟨rfl, rfl⟩ := Prod.mk.injEq .. ▸ Option.some.inj hstep
                exact Or.inl rfl
            case h_2 =>
              obtain ⟨rfl, rfl⟩ := Prod.mk.injEq .. ▸ Option.some.inj hstep
              exact Or.inl rfl
          case isFalse hnis =>
            obtain ⟨rfl, rfl⟩ := Prod.mk.injEq .. ▸ Option.some.inj hstep
            exact Or.inr hkv
    | textInput m =>
        simp only [stepEv] at hstep
        have h' : zakatProcessInput s m = (s', as) := Option.some.inj hstep
        simp only [zakatProcessInput] at h'
        split at h'
        case isTrue hra =>
          obtain ⟨rfl, rfl⟩ := Prod.mk.injEq .. ▸ h'
          exact Or.inr hkv
        case isFalse hra =>
          split at h'
          case isTrue =>
            obtain ⟨rfl, rfl⟩ := Prod.mk.injEq .. ▸ h'
            exact Or.inr hkv
          case isFalse hza =>
            have hact : s.z.active = true := by
              revert hza; cases s.z.active <;> simp
            split at h'
            case isTrue =>
              obtain ⟨rfl, rfl⟩ := Prod.mk.injEq .. ▸ h'
              exact Or.inr hkv
            case isFalse hlt2 =>
              split at h'
              case h_1 =>
                obtain ⟨rfl, rfl⟩ := Prod.mk.injEq .. ▸ h'
                exact Or.inr hkv
              case h_2 v2 hv2 =>
                have hfresh := key_fresh h hact
                have hsk := setKey_not_mem (d := s.z.data) v2 hfresh
                split at h'
                case isTrue hdisp =>
                  split at h'
                  case h_1 p hp =>
                    obtain ⟨rfl, rfl⟩ := Prod.mk.injEq .. ▸ h'
                    refine Or.inr ?_
                    show lookupData (setKey s.z.data _ v2) k = some v
                    rw [hsk]
                    exact lookup_append_left _ hkv
                  case h_2 hp =>
                    obtain ⟨rfl, rfl⟩ := Prod.mk.injEq .. ▸ h'
                    exact Or.inl rfl
                case isFalse hdisp =>
                  obtain ⟨rfl, rfl⟩ := Prod.mk.injEq .. ▸ h'
                  refine Or.inr ?_
                  show lookupData (setKey s.z.data _ v2) k = some v
                  rw [hsk]
                  exact lookup_append_left _ hkv
    | cancelZakat =>
        simp only [stepEv] at hstep
        split at hstep
        · obtain ⟨rfl, rfl⟩ := Prod.mk.injEq .. ▸ Option.some.inj hstep
          exact Or.inl rfl
        · obtain ⟨rfl, rfl⟩ := Prod.mk.injEq .. ▸ Option.some.inj hstep
          exact Or.inr hkv
    | calcResponse r =>
        simp only [stepEv] at hstep
        split at hstep
        case isFalse => cases hstep
        case isTrue =>
          have h' : handleCalcResponse s r = (s', as) := Option.some.inj hstep
          cases r with
          | ok nis amt rtype reply =>
              simp only [handleCalcResponse, offerReminder, startReminderFlow] at h'
              split at h'
              · obtain ⟨rfl, rfl⟩ := Prod.mk.injEq .. ▸ h'
                exact Or.inl rfl
              · obtain ⟨rfl, rfl⟩ := Prod.mk.injEq .. ▸ h'
                exact Or.inl rfl
          | err em =>
              simp only [handleCalcResponse] at h'
              obtain ⟨rfl, rfl⟩ := Prod.mk.injEq .. ▸ h'
              exact Or.inl rfl
          | unreachable =>
              simp only [handleCalcResponse] at h'
              obtain ⟨rfl, rfl⟩ := Prod.mk.injEq .. ▸ h'
              exact Or.inl rfl
    | nisabResponse ok reply =>
        simp only [stepEv] at hstep
        split at hstep
        · obtain ⟨rfl, rfl⟩ := Prod.mk.injEq .. ▸ Option.some.inj hstep
          exact Or.inl rfl
        · cases hstep
    | remPermission yes =>
        simp only [stepEv] at hstep
        split at hstep
        case isTrue =>
          split at hstep
          · obtain ⟨rfl, rfl⟩ := Prod.mk.injEq .. ▸ Option.some.inj hstep
            exact Or.inr hkv
          · obtain ⟨rfl, rfl⟩ := Prod.mk.injEq .. ▸ Option.some.inj hstep
            exact Or.inr hkv
        case isFalse => cases hstep
    | saveResponse ok error =>
        simp only [stepEv] at hstep
        split at hstep
        · obtain ⟨rfl, rfl⟩ := Prod.mk.injEq .. ▸ Option.some.inj hstep
          exact Or.inr hkv
        · cases hstep

/-- **C9** counterexample: a free-text message processed while the
computation call is in flight (reachable without the safety discipline)
adds the key `"undefined"` — a key not declared in the active variant's
step list — to `collectedFields`, refuting the unrestricted invariant. -/
theorem collected_fields_undefined_key :
    Reach trace6 ∧ trace6.z.active = true ∧
    lookupData trace6.z.data "undefined" = some (.num 7 0) ∧
    "undefined" ∈ keysOf trace6.z.data ∧
    "undefined" ∉ stepsOf trace6.z.type := by
  refine ⟨?_, rfl, by decide, by decide, by decide⟩
  exact reach_trace5.step
    (show stepEv trace5 (.textInput "7") = some (trace6, [Act.calcRequest incomeAPayload])
      by decide)

theorem reachSafe_trace5 : ReachSafe trace5 := by
  have h1 : ReachSafe trace1 :=
    ReachSafe.init.step
      (show stepEv initState (.startFlow "income_kaedah_a") = some (trace1, []) by decide)
      (fun m hm => by cases hm)
  have h2 : ReachSafe trace2 :=
    h1.step (show stepEv trace1 (.yearTypeChosen "M") = some (trace2, [Act.yearRequest "M"])
      by decide) (fun m hm => by cases hm)
  have h3 : ReachSafe trace3 :=
    h2.step (show stepEv trace2 (.yearsResponse (.ok ["2024"])) =
      some (trace3, [Act.showYears ["2024"]]) by decide) (fun m hm => by cases hm)
  have h4 : ReachSafe trace4 :=
    h3.step (show stepEv trace3 (.yearChosen "2024") =
      some (trace4, [Act.msg (promptAt (some "income_kaedah_a") 2)]) by decide)
      (fun m hm => by cases hm)
  exact h4.step (show stepEv trace4 (.textInput "5000") =
      some (trace5, [Act.calcRequest incomeAPayload]) by decide)
    (fun m hm _ => by decide)

/-- **C9** witness: the invariant instantiated at the reachable state
`trace5`. -/
theorem collected_fields_invariant_witness :
    keysOf trace5.z.data = fieldKeys trace5.z.type trace5.z.step ∧
    (∀ k ∈ keysOf trace5.z.data, k ∈ stepsOf trace5.z.type) ∧
    (trace6.z.data = [] ∨ lookupData trace6.z.data "amount" = some (.num 5000 0)) := by
  obtain ⟨h1, -, h3⟩ := (collected_fields_invariant trace5 reachSafe_trace5).1 rfl
  refine ⟨h1, h3, ?_⟩
  exact (collected_fields_invariant trace5 reachSafe_trace5).2 (.textInput "7") trace6
    [Act.calcRequest incomeAPayload] (by decide) "amount" (.num 5000 0) (by decide)
